import Mathlib

/-! Content resolver with checksum verification: a model of `pkg/blob/load.go`. -/

namespace blob

/-- A Go `string` or `[]byte`: a finite sequence of bytes. -/
abbrev Bytes := List UInt8

/-- The bytes of a string literal (its UTF-8 encoding, as in a Go source file). -/
def str (s : String) : Bytes :=
  s.toList.foldr (fun c acc => String.utf8EncodeChar c ++ acc) []

/-! ## `crypto/sha256`, `crypto/sha512` (FIPS 180-4) and `encoding/hex` -/

namespace sha2

/-- The parameters that distinguish SHA-256 from SHA-512. -/
structure Params where
  /-- Word size in bits. -/
  w : Nat
  /-- Number of rounds, which is also the length of the message schedule. -/
  rounds : Nat
  /-- Round constants. -/
  K : List Nat
  /-- Initial hash value. -/
  H0 : List Nat
  /-- Rotation amounts of the big sigma functions. -/
  bigS0 : Nat × Nat × Nat
  bigS1 : Nat × Nat × Nat
  /-- Two rotation amounts and one shift amount of the small sigma functions. -/
  smallS0 : Nat × Nat × Nat
  smallS1 : Nat × Nat × Nat

def sha256Params : Params where
  w := 32
  rounds := 64
  K :=
  [0x428a2f98, 0x71374491, 0xb5c0fbcf, 0xe9b5dba5,
   0x3956c25b, 0x59f111f1, 0x923f82a4, 0xab1c5ed5,
   0xd807aa98, 0x12835b01, 0x243185be, 0x550c7dc3,
   0x72be5d74, 0x80deb1fe, 0x9bdc06a7, 0xc19bf174,
   0xe49b69c1, 0xefbe4786, 0x0fc19dc6, 0x240ca1cc,
   0x2de92c6f, 0x4a7484aa, 0x5cb0a9dc, 0x76f988da,
   0x983e5152, 0xa831c66d, 0xb00327c8, 0xbf597fc7,
   0xc6e00bf3, 0xd5a79147, 0x06ca6351, 0x14292967,
   0x27b70a85, 0x2e1b2138, 0x4d2c6dfc, 0x53380d13,
   0x650a7354, 0x766a0abb, 0x81c2c92e, 0x92722c85,
   0xa2bfe8a1, 0xa81a664b, 0xc24b8b70, 0xc76c51a3,
   0xd192e819, 0xd6990624, 0xf40e3585, 0x106aa070,
   0x19a4c116, 0x1e376c08, 0x2748774c, 0x34b0bcb5,
   0x391c0cb3, 0x4ed8aa4a, 0x5b9cca4f, 0x682e6ff3,
   0x748f82ee, 0x78a5636f, 0x84c87814, 0x8cc70208,
   0x90befffa, 0xa4506ceb, 0xbef9a3f7, 0xc67178f2]
  H0 :=
  [0x6a09e667, 0xbb67ae85, 0x3c6ef372, 0xa54ff53a,
   0x510e527f, 0x9b05688c, 0x1f83d9ab, 0x5be0cd19]
  bigS0 := (2, 13, 22)
  bigS1 := (6, 11, 25)
  smallS0 := (7, 18, 3)
  smallS1 := (17, 19, 10)

def sha512Params : Params where
  w := 64
  rounds := 80
  K :=
  [0x428a2f98d728ae22, 0x7137449123ef65cd,
   0xb5c0fbcfec4d3b2f, 0xe9b5dba58189dbbc,
   0x3956c25bf348b538, 0x59f111f1b605d019,
   0x923f82a4af194f9b, 0xab1c5ed5da6d8118,
   0xd807aa98a3030242, 0x12835b0145706fbe,
   0x243185be4ee4b28c, 0x550c7dc3d5ffb4e2,
   0x72be5d74f27b896f, 0x80deb1fe3b1696b1,
   0x9bdc06a725c71235, 0xc19bf174cf692694,
   0xe49b69c19ef14ad2, 0xefbe4786384f25e3,
   0x0fc19dc68b8cd5b5, 0x240ca1cc77ac9c65,
   0x2de92c6f592b0275, 0x4a7484aa6ea6e483,
   0x5cb0a9dcbd41fbd4, 0x76f988da831153b5,
   0x983e5152ee66dfab, 0xa831c66d2db43210,
   0xb00327c898fb213f, 0xbf597fc7beef0ee4,
   0xc6e00bf33da88fc2, 0xd5a79147930aa725,
   0x06ca6351e003826f, 0x142929670a0e6e70,
   0x27b70a8546d22ffc, 0x2e1b21385c26c926,
   0x4d2c6dfc5ac42aed, 0x53380d139d95b3df,
   0x650a73548baf63de, 0x766a0abb3c77b2a8,
   0x81c2c92e47edaee6, 0x92722c851482353b,
   0xa2bfe8a14cf10364, 0xa81a664bbc423001,
   0xc24b8b70d0f89791, 0xc76c51a30654be30,
   0xd192e819d6ef5218, 0xd69906245565a910,
   0xf40e35855771202a, 0x106aa07032bbd1b8,
   0x19a4c116b8d2d0c8, 0x1e376c085141ab53,
   0x2748774cdf8eeb99, 0x34b0bcb5e19b48a8,
   0x391c0cb3c5c95a63, 0x4ed8aa4ae3418acb,
   0x5b9cca4f7763e373, 0x682e6ff3d6b2b8a3,
   0x748f82ee5defb2fc, 0x78a5636f43172f60,
   0x84c87814a1f0ab72, 0x8cc702081a6439ec,
   0x90befffa23631e28, 0xa4506cebde82bde9,
   0xbef9a3f7b2c67915, 0xc67178f2e372532b,
   0xca273eceea26619c, 0xd186b8c721c0c207,
   0xeada7dd6cde0eb1e, 0xf57d4f7fee6ed178,
   0x06f067aa72176fba, 0x0a637dc5a2c898a6,
   0x113f9804bef90dae, 0x1b710b35131c471b,
   0x28db77f523047d84, 0x32caab7b40c72493,
   0x3c9ebe0a15c9bebc, 0x431d67c49c100d4c,
   0x4cc5d4becb3e42b6, 0x597f299cfc657e2a,
   0x5fcb6fab3ad6faec, 0x6c44198c4a475817]
  H0 :=
  [0x6a09e667f3bcc908, 0xbb67ae8584caa73b,
   0x3c6ef372fe94f82b, 0xa54ff53a5f1d36f1,
   0x510e527fade682d1, 0x9b05688c2b3e6c1f,
   0x1f83d9abfb41bd6b, 0x5be0cd19137e2179]
  bigS0 := (28, 34, 39)
  bigS1 := (14, 18, 41)
  smallS0 := (1, 8, 7)
  smallS1 := (19, 61, 6)

/-- Rotate the `w`-bit word `x` right by `n` bits. -/
def rotr (w n x : Nat) : Nat :=
  ((x >>> n) ||| (x <<< (w - n))) % 2 ^ w

def bigSigma (w : Nat) (r : Nat × Nat × Nat) (x : Nat) : Nat :=
  rotr w r.1 x ^^^ rotr w r.2.1 x ^^^ rotr w r.2.2 x

def smallSigma (w : Nat) (r : Nat × Nat × Nat) (x : Nat) : Nat :=
  rotr w r.1 x ^^^ rotr w r.2.1 x ^^^ (x >>> r.2.2)

def ch (w x y z : Nat) : Nat :=
  (x &&& y) ^^^ ((2 ^ w - 1 - x) &&& z)

def maj (x y z : Nat) : Nat :=
  (x &&& y) ^^^ (x &&& z) ^^^ (y &&& z)

/-- Big-endian value of a byte sequence. -/
def beWord (bs : Bytes) : Nat :=
  bs.foldl (fun acc b => acc * 256 + b.toNat) 0

/-- The `n` low-order bytes of `x`, most significant first. -/
def beBytes : Nat → Nat → Bytes
  | 0, _ => []
  | n + 1, x => UInt8.ofNat ((x >>> (8 * n)) % 256) :: beBytes n x

/-- Cut a list into consecutive pieces of length `n` (the last one may be shorter). -/
def chunks (n : Nat) : Nat → List UInt8 → List (List UInt8)
  | 0, _ => []
  | fuel + 1, l => if l.isEmpty then [] else l.take n :: chunks n fuel (l.drop n)

/-- Padding: a `0x80` byte, zero bytes, and the bit length in `w / 4` bytes, so that the
total length is a multiple of the block size `2 * w` bytes. -/
def pad (p : Params) (msg : Bytes) : Bytes :=
  let block := 2 * p.w
  let lenField := p.w / 4
  let zeros := (block - (msg.length + 1 + lenField) % block) % block
  msg ++ [0x80] ++ List.replicate zeros 0 ++ beBytes lenField (8 * msg.length)

/-- Extend the message schedule, kept most recent word first, by `n` words. -/
def schedule (p : Params) : Nat → List Nat → List Nat
  | 0, rev => rev
  | n + 1, rev =>
    let x := (smallSigma p.w p.smallS1 (rev.getD 1 0) + rev.getD 6 0
      + smallSigma p.w p.smallS0 (rev.getD 14 0) + rev.getD 15 0) % 2 ^ p.w
    schedule p n (x :: rev)

/-- One round on the working variables `[a, b, c, d, e, f, g, h]`. -/
def round (p : Params) (s : List Nat) (kw : Nat × Nat) : List Nat :=
  match s with
  | [a, b, c, d, e, f, g, h] =>
    let t1 := (h + bigSigma p.w p.bigS1 e + ch p.w e f g + kw.1 + kw.2) % 2 ^ p.w
    let t2 := (bigSigma p.w p.bigS0 a + maj a b c) % 2 ^ p.w
    [(t1 + t2) % 2 ^ p.w, a, b, c, (d + t1) % 2 ^ p.w, e, f, g]
  | _ => s

/-- Process one block of `2 * w` bytes. -/
def compress (p : Params) (h : List Nat) (block : Bytes) : List Nat :=
  let w16 := (chunks (p.w / 8) 16 block).map beWord
  let ws := (schedule p (p.rounds - 16) w16.reverse).reverse
  let s := (p.K.zip ws).foldl (round p) h
  List.zipWith (fun x y => (x + y) % 2 ^ p.w) h s

/-- The digest: the final hash value, each word big-endian. -/
def sum (p : Params) (msg : Bytes) : Bytes :=
  let padded := pad p msg
  let h := (chunks (2 * p.w) padded.length padded).foldl (compress p) p.H0
  h.foldr (fun x acc => beBytes (p.w / 8) x ++ acc) []

end sha2

/-- The function `sha256.Sum256` as a byte sequence. -/
def sha256Sum (msg : Bytes) : Bytes := sha2.sum sha2.sha256Params msg

/-- The function `sha512.Sum512` as a byte sequence. -/
def sha512Sum (msg : Bytes) : Bytes := sha2.sum sha2.sha512Params msg

/-- The digit table of `encoding/hex`. -/
def hextable : Bytes := str "0123456789abcdef"

/-- The function `hex.EncodeToString`: two lowercase hexadecimal digits per byte. -/
def hexEncodeToString : Bytes → Bytes
  | [] => []
  | v :: rest =>
    hextable.getD (v.toNat >>> 4) 0 :: hextable.getD (v.toNat &&& 0x0f) 0 :: hexEncodeToString rest

/-! ## `strings.Split`, `strings.SplitAfterN` and `fmt.Sprintf` -/

/-- The function `strings.Index`: the position of the first occurrence of `substr` in `s`,
or `none` where Go returns `-1`. -/
def Index : Bytes → Bytes → Option Nat
  | [], substr => if substr.isEmpty then some 0 else none
  | c :: s, substr =>
    if substr.isPrefixOf (c :: s) then some 0 else (Index s substr).map (· + 1)

/-- The loop of `strings.Count` for a separator of two or more bytes. -/
def Count.loop (substr : Bytes) : Nat → Bytes → Nat
  | 0, _ => 0
  | fuel + 1, s =>
    match Index s substr with
    | none => 0
    | some i => Count.loop substr fuel (s.drop (i + substr.length)) + 1

/-- The function `strings.Count` for a non-empty `substr`: the number of non-overlapping
occurrences. A single byte is counted directly, as in Go. -/
def Count (s substr : Bytes) : Nat :=
  match substr with
  | [c] => s.count c
  | _ => Count.loop substr s.length s

/-- The loop of `strings.genSplit`, with `k` the number of iterations left (`n - i`). -/
def genSplit.loop (sep : Bytes) (sepSave : Nat) : Nat → Bytes → List Bytes
  | 0, s => [s]
  | k + 1, s =>
    match Index s sep with
    | none => [s]
    | some m => s.take (m + sepSave) :: genSplit.loop sep sepSave k (s.drop (m + sep.length))

/-- The function `strings.genSplit` for a non-empty separator (the two callers below pass
the constants `":"` and `"://"`; the branch for an empty separator is not modelled). -/
def genSplit (s sep : Bytes) (sepSave : Nat) (n : Int) : List Bytes :=
  if n = 0 then []
  else
    let n : Nat := if n < 0 then Count s sep + 1 else n.toNat
    let n : Nat := if n > s.length + 1 then s.length + 1 else n
    genSplit.loop sep sepSave (n - 1) s

/-- The function `strings.Split`. -/
def Split (s sep : Bytes) : List Bytes := genSplit s sep 0 (-1)

/-- The function `strings.SplitAfterN`. -/
def SplitAfterN (s sep : Bytes) (n : Int) : List Bytes := genSplit s sep sep.length n

/-- The function `fmt.Sprintf` for formats whose only verb is `%s`, applied to strings:
every `%s` is replaced by the next operand. -/
def Sprintf : Bytes → List Bytes → Bytes
  | [], _ => []
  | [c], _ => [c]
  | c :: d :: rest, args =>
    if c = 37 ∧ d = 115 then
      match args with
      | a :: args => a ++ Sprintf rest args
      | [] => str "%!s(MISSING)" ++ Sprintf rest []
    else c :: Sprintf (d :: rest) args

/-! ## Errors, hashes and the observed world -/

/-- Go `error` values. -/
inductive Error where
  /-- A `*UnrecognizedSchemeError`. -/
  | UnrecognizedSchemeError (Scheme : Bytes)
  /-- The value of `fmt.Errorf` with the given message. -/
  | errorString (msg : Bytes)
  /-- An error made by `os`, `io` or `net/http`. -/
  | external (msg : Bytes)
  deriving DecidableEq

set_option linter.dupNamespace false in
/-- The method `Error()` of an error value. -/
def Error.Error : Error → Bytes
  | .UnrecognizedSchemeError Scheme => Sprintf (str "loading URL: unrecognized scheme: %s") [Scheme]
  | .errorString msg => msg
  | .external msg => msg

/-- The function `fmt.Errorf` (no `%w` verb is used in this package). -/
def Errorf (format : Bytes) (args : List Bytes) : Error :=
  .errorString (Sprintf format args)

/-- The two hash algorithms of the package. -/
inductive Algo where
  | sha256
  | sha512
  deriving DecidableEq

/-- A `hash.Hash`: the algorithm and the bytes written so far. -/
structure Hash where
  algo : Algo
  written : Bytes
  deriving DecidableEq

/-- The constructor `sha256.New()`. -/
def sha256New : Hash := ⟨.sha256, []⟩

/-- The constructor `sha512.New()`. -/
def sha512New : Hash := ⟨.sha512, []⟩

/-- The method `Write`; a nil slice (`none`) writes nothing. -/
def Hash.Write (h : Hash) (p : Option Bytes) : Hash :=
  { h with written := h.written ++ p.getD [] }

/-- The method `Sum(b)`: `b` followed by the digest of what was written. -/
def Hash.Sum (h : Hash) (b : Option Bytes) : Bytes :=
  b.getD [] ++
    match h.algo with
    | .sha256 => sha256Sum h.written
    | .sha512 => sha512Sum h.written

/-- An `io.Reader` (a response body, an open file, a `strings.Reader`), given by what
reading it to the end delivers: the bytes, and the error that ended the reading if it was
not the end of the data. -/
structure Reader where
  data : Bytes
  err : Option Error
  deriving DecidableEq

/-- The function `io.ReadAll`: the bytes read and the error, if any. The slice it returns
is never nil. -/
def ioReadAll (r : Reader) : Option Bytes × Option Error := (some r.data, r.err)

/-- The function `strings.NewReader`. -/
def stringsNewReader (s : Bytes) : Reader := ⟨s, none⟩

/-- An `*http.Response`, as far as the package looks at it. -/
structure Response where
  StatusCode : Int
  Body : Reader
  deriving DecidableEq

/-- The state of the filesystem, the network and the environment that a call observes,
together with the platform's `filepath.Clean`. -/
structure World where
  /-- The function `os.Open`: an open file, or an error. -/
  Open : Bytes → Except Error Reader
  /-- The function `http.Get`: a response, or a transport error. -/
  Get : Bytes → Except Error Response
  /-- The function `os.LookupEnv`: the value if the variable is set. -/
  LookupEnv : Bytes → Option Bytes
  /-- The function `filepath.Clean`. -/
  Clean : Bytes → Bytes

/-- The function `os.ReadFile`: open the file and read it to the end. -/
def osReadFile (w : World) (name : Bytes) : Option Bytes × Option Error :=
  match w.Open name with
  | .error err => (none, some err)
  | .ok f => ioReadAll f

/-- A call of `os` or `net/http` that reads or changes the filesystem, the network or the
environment. The first four read; the last four (`os.WriteFile`, `os.Remove`, `os.Setenv`,
`os.Unsetenv`) write, and stand for what a program could do to the filesystem and the
environment. -/
inductive Call where
  | Get (url : Bytes)
  | LookupEnv (key : Bytes)
  | ReadFile (name : Bytes)
  | Open (name : Bytes)
  | WriteFile (name data : Bytes)
  | Remove (name : Bytes)
  | Setenv (key value : Bytes)
  | Unsetenv (key : Bytes)
  deriving DecidableEq

/-- What a call of one of the three operations does: the backend calls it made, in
order, and either the pair it returned (`none` is Go's `nil`) or a run-time panic. -/
inductive Outcome (α : Type) where
  | ret (calls : List Call) (val : Option α) (err : Option Error)
  | panic (calls : List Call)
  deriving DecidableEq

/-- The backend calls made. -/
def Outcome.calls {α : Type} : Outcome α → List Call
  | .ret calls _ _ => calls
  | .panic calls => calls

/-! ## The three operations of `load.go` -/

/-- The function `LoadFileOrURL`. -/
def LoadFileOrURL (w : World) (fileRef : Bytes) : Outcome Bytes :=
  let parts := SplitAfterN fileRef (str "://") 2
  if parts.length = 2 then
    match parts[0]? with
    | none => .panic []
    | some scheme =>
      if scheme = str "http://" ∨ scheme = str "https://" then
        match w.Get fileRef with
        | .error err => .ret [.Get fileRef] none (some err)
        | .ok resp =>
          match ioReadAll resp.Body with
          | (_, some err) => .ret [.Get fileRef] none (some err)
          | (raw, none) => .ret [.Get fileRef] raw none
      else if scheme = str "env://" then
        match parts[1]? with
        | none => .panic []
        | some envVar =>
          match w.LookupEnv envVar with
          | none =>
            .ret [.LookupEnv envVar] none
              (some (Errorf (str "loading URL: env var $%s not found") [envVar]))
          | some value => .ret [.LookupEnv envVar] (some value) none
      else .ret [] none (some (.UnrecognizedSchemeError scheme))
  else
    match osReadFile w (w.Clean fileRef) with
    | (_, some err) => .ret [.ReadFile (w.Clean fileRef)] none (some err)
    | (raw, none) => .ret [.ReadFile (w.Clean fileRef)] raw none

/-- The function `LoadFileOrURLUsingReader`. -/
def LoadFileOrURLUsingReader (w : World) (fileRef : Bytes) : Outcome Reader :=
  let parts := SplitAfterN fileRef (str "://") 2
  if parts.length = 2 then
    match parts[0]? with
    | none => .panic []
    | some scheme =>
      if scheme = str "http://" ∨ scheme = str "https://" then
        match w.Get fileRef with
        | .error err => .ret [.Get fileRef] none (some err)
        | .ok resp => .ret [.Get fileRef] (some resp.Body) none
      else if scheme = str "env://" then
        match parts[1]? with
        | none => .panic []
        | some envVar =>
          match w.LookupEnv envVar with
          | none =>
            .ret [.LookupEnv envVar] none
              (some (Errorf (str "loading URL: env var $%s not found") [envVar]))
          | some value => .ret [.LookupEnv envVar] (some (stringsNewReader value)) none
      else .ret [] none (some (.UnrecognizedSchemeError scheme))
  else
    match w.Open (w.Clean fileRef) with
    | .error err => .ret [.Open (w.Clean fileRef)] none (some err)
    | .ok file => .ret [.Open (w.Clean fileRef)] (some file) none

/-- Lines 132 to 143 of `LoadFileOrURLWithChecksum`: what follows the choice of the
algorithm. -/
def LoadFileOrURLWithChecksum.verify (w : World) (fileRef checksumValue : Bytes)
    (checksumAlgo : Hash) : Outcome Bytes :=
  match LoadFileOrURL w fileRef with
  | .panic calls => .panic calls
  | .ret calls _ (some err) => .ret calls none (some err)
  | .ret calls fileContent none =>
    let checksumAlgo := checksumAlgo.Write fileContent
    let computedChecksum := hexEncodeToString (checksumAlgo.Sum none)
    if computedChecksum ≠ checksumValue then
      .ret calls none
        (some (Errorf (str "incorrect checksum for file %s: expected %s but got %s")
          [fileRef, checksumValue, computedChecksum]))
    else .ret calls fileContent none

/-- The function `LoadFileOrURLWithChecksum`. -/
def LoadFileOrURLWithChecksum (w : World) (fileRef checksum : Bytes) : Outcome Bytes :=
  let checksumParts := Split checksum (str ":")
  if checksumParts.length ≥ 3 then
    .ret [] none
      (some (Errorf (str "wrong checksum input format, must have at most 1 colon: %s")
        [checksum]))
  else
    let checksumAlgo := sha256New
    match checksumParts[checksumParts.length - 1]? with
    | none => .panic []
    | some checksumValue =>
      if checksumParts.length = 2 then
        match checksumParts[0]? with
        | none => .panic []
        | some algo =>
          if algo = str "sha256" then
            LoadFileOrURLWithChecksum.verify w fileRef checksumValue checksumAlgo
          else if algo = str "sha512" then
            LoadFileOrURLWithChecksum.verify w fileRef checksumValue sha512New
          else
            .ret [] none (some (Errorf (str "unsupported checksum algorithm: %s") [algo]))
      else LoadFileOrURLWithChecksum.verify w fileRef checksumValue checksumAlgo

/-! ## A concrete world -/

/-- A world with one file `hello.txt` holding `hello`, one URL that answers 404 with a
body, and one environment variable `COSIGN_KEY`. Every path used with it is already clean,
so its `Clean` is the identity. -/
def exampleWorld : World where
  Open := fun name =>
    if name = str "hello.txt" then .ok ⟨str "hello", none⟩
    else .error (.external (str "open: no such file or directory"))
  Get := fun url =>
    if url = str "https://example.com/missing" then .ok ⟨404, ⟨str "404 page not found", none⟩⟩
    else .error (.external (str "dial tcp: connection refused"))
  LookupEnv := fun key => if key = str "COSIGN_KEY" then some (str "secret") else none
  Clean := fun name => name


/-! ## `filepath.Clean` where the separator is `/` and there are no volume names -/

/-- The inner loop of the `..` case of `filepath.Clean`: from the write index `w`, step
back while the index is above `dotdot` and the byte there is not a separator. -/
def unixClean.backtrack (out : Bytes) (dotdot : Nat) : Nat → Nat
  | 0 => 0
  | w + 1 => if w + 1 > dotdot ∧ out.getD (w + 1) 0 ≠ 47 then unixClean.backtrack out dotdot w
    else w + 1

/-- The main loop of `filepath.Clean`: `path` is what is left to read (from index `r`),
`out` is what has been written (its length is the write index), and `fuel` bounds the number
of iterations, each of which reads at least one byte. -/
def unixClean.loop (rooted : Bool) : Nat → Bytes → Bytes → Nat → Bytes
  | 0, _, out, _ => out
  | _ + 1, [], out, _ => out
  | fuel + 1, c :: rest, out, dotdot =>
    if c = 47 then
      unixClean.loop rooted fuel rest out dotdot
    else if c = 46 ∧ (rest = [] ∨ rest.head? = some 47) then
      unixClean.loop rooted fuel rest out dotdot
    else if c = 46 ∧ rest.head? = some 46 ∧ (rest.tail = [] ∨ rest.tail.head? = some 47) then
      if out.length > dotdot then
        unixClean.loop rooted fuel rest.tail
          (out.take (unixClean.backtrack out dotdot (out.length - 1))) dotdot
      else if !rooted then
        let out := (if out.length > 0 then out ++ [47] else out) ++ [46, 46]
        unixClean.loop rooted fuel rest.tail out out.length
      else unixClean.loop rooted fuel rest.tail out dotdot
    else
      let out :=
        if (rooted ∧ out.length ≠ 1) ∨ (!rooted ∧ out.length ≠ 0) then out ++ [47] else out
      unixClean.loop rooted fuel ((c :: rest).dropWhile (· ≠ 47))
        (out ++ (c :: rest).takeWhile (· ≠ 47)) dotdot

/-- The function `filepath.Clean` of a platform whose separator is `/` (byte 47) and that
has no volume names. -/
def unixClean (path : Bytes) : Bytes :=
  match path with
  | [] => str "."
  | c :: rest =>
    let rooted : Bool := c = 47
    let out :=
      if rooted then unixClean.loop rooted path.length rest [47] 1
      else unixClean.loop rooted path.length path [] 0
    if out.length = 0 then str "." else out

/-- A world on such a platform, with one file `a/c` holding `hello`. -/
def unixWorld : World where
  Open := fun name =>
    if name = str "a/c" then .ok ⟨str "hello", none⟩
    else .error (.external (str "open: no such file or directory"))
  Get := fun _ => .error (.external (str "dial tcp: connection refused"))
  LookupEnv := fun _ => none
  Clean := unixClean

/-! ## Backends -/

/-- The three backends of the resolver. -/
inductive Backend where
  | filesystem
  | network
  | environment
  deriving DecidableEq

/-- The backend a call goes to, and the argument it is called with. -/
def Call.target : Call → Backend × Bytes
  | .Get url => (.network, url)
  | .LookupEnv key => (.environment, key)
  | .ReadFile name => (.filesystem, name)
  | .Open name => (.filesystem, name)
  | .WriteFile name _ => (.filesystem, name)
  | .Remove name => (.filesystem, name)
  | .Setenv key _ => (.environment, key)
  | .Unsetenv key => (.environment, key)

/-- The world after a call. A read (`http.Get`, `os.LookupEnv`, `os.ReadFile`, `os.Open`)
leaves the filesystem and the environment as they are; `os.WriteFile` and `os.Remove` change
what opening the named file gives, `os.Setenv` and `os.Unsetenv` what looking up the named
variable gives. -/
def Call.apply (w : World) : Call → World
  | .Get _ => w
  | .LookupEnv _ => w
  | .ReadFile _ => w
  | .Open _ => w
  | .WriteFile name data =>
    { w with Open := fun n => if n = name then .ok ⟨data, none⟩ else w.Open n }
  | .Remove name =>
    { w with
      Open := fun n =>
        if n = name then .error (.external (str "open: no such file or directory"))
        else w.Open n }
  | .Setenv key value =>
    { w with LookupEnv := fun k => if k = key then some value else w.LookupEnv k }
  | .Unsetenv key => { w with LookupEnv := fun k => if k = key then none else w.LookupEnv k }

/-- The world after a sequence of calls, made in order. -/
def World.after (w : World) (calls : List Call) : World := calls.foldl Call.apply w

end blob

/-! ## The registry lookup of `pkg/oci/remote/referrers.go` -/

namespace remote

/-- What `Referrers` calls and this file does not hold: `makeOptions` of the same package,
of whose result only the field `ROpt` is used, and `remote.WithFilter`, `remote.Referrers`
and the method `IndexManifest` of the registry client library. -/
structure Client (Digest Opt ROpt Index Manifest Err : Type) where
  /-- The field `ROpt` of `makeOptions(name.Repository{}, opts...)`. -/
  makeOptions : List Opt → List ROpt
  /-- The option `remote.WithFilter(key, value)`. -/
  WithFilter : blob.Bytes → blob.Bytes → ROpt
  /-- The function `remote.Referrers`: an index, or an error. -/
  Referrers : Digest → List ROpt → Except Err Index
  /-- The method `IndexManifest` of an index: the pair it returns. -/
  IndexManifest : Index → Option Manifest × Option Err

/-- What a call of `Referrers` does: the calls it made to `remote.Referrers`, with their
arguments, and the pair it returned (`none` is Go's `nil`). -/
structure Outcome (Digest ROpt Manifest Err : Type) where
  calls : List (Digest × List ROpt)
  manifest : Option Manifest
  err : Option Err

/-- The function `Referrers`. -/
def Referrers {Digest Opt ROpt Index Manifest Err : Type}
    (c : Client Digest Opt ROpt Index Manifest Err) (d : Digest) (artifactType : blob.Bytes)
    (opts : List Opt) : Outcome Digest ROpt Manifest Err :=
  let rOpt := c.makeOptions opts
  let rOpt :=
    if artifactType ≠ blob.str "" then
      rOpt ++ [c.WithFilter (blob.str "artifactType") artifactType]
    else rOpt
  match c.Referrers d rOpt with
  | .error err => ⟨[(d, rOpt)], none, some err⟩
  | .ok idx => ⟨[(d, rOpt)], (c.IndexManifest idx).1, (c.IndexManifest idx).2⟩

/-- A registry client whose options are key and value pairs and whose index is the list of
the values it was asked with; the digest `sha256:00` is not found. -/
def exampleClient :
    Client blob.Bytes (blob.Bytes × blob.Bytes) (blob.Bytes × blob.Bytes) (List blob.Bytes)
      (List blob.Bytes) blob.Bytes where
  makeOptions := fun opts => opts
  WithFilter := fun key value => (key, value)
  Referrers := fun d rOpt =>
    if d = blob.str "sha256:00" then .error (blob.str "NAME_UNKNOWN") else .ok (rOpt.map Prod.snd)
  IndexManifest := fun idx => (some idx, none)

end remote

namespace blob

/-! ## String literals and formats -/

theorem str_colon : str ":" = [58] := by decide

theorem str_schemeSep : str "://" = [58, 47, 47] := by decide

theorem Sprintf_of_not_mem (p : Bytes) (args : List Bytes) (hp : (37 : UInt8) ∉ p) :
    Sprintf p args = p := by
  induction p with
  | nil => rfl
  | cons c p ih =>
    cases p with
    | nil => rfl
    | cons d rest =>
      have hc : c ≠ 37 := fun h => hp (by simp [h])
      have hrest : (37 : UInt8) ∉ d :: rest := fun h => hp (List.mem_cons_of_mem _ h)
      simp [Sprintf, hc, ih hrest]

theorem Sprintf_append_verb (p rest a : Bytes) (args : List Bytes) (hp : (37 : UInt8) ∉ p) :
    Sprintf (p ++ 37 :: 115 :: rest) (a :: args) = p ++ (a ++ Sprintf rest args) := by
  induction p with
  | nil => simp [Sprintf]
  | cons c p ih =>
    have hc : c ≠ 37 := fun h => hp (by simp [h])
    have hrest : (37 : UInt8) ∉ p := fun h => hp (List.mem_cons_of_mem _ h)
    cases p with
    | nil => simp [Sprintf, hc]
    | cons d rest2 =>
      have := ih hrest
      simp only [List.cons_append] at this ⊢
      simp [Sprintf, hc, this]

theorem Sprintf_one (p a : Bytes) (hp : (37 : UInt8) ∉ p) :
    Sprintf (p ++ [37, 115]) [a] = p ++ a := by
  rw [Sprintf_append_verb p [] a [] hp]
  simp [Sprintf]

/-! ## Known answers for the hash functions (FIPS 180-4 examples) -/

set_option maxRecDepth 100000 in
theorem sha256Sum_abc :
    hexEncodeToString (sha256Sum (str "abc")) =
      str "ba7816bf8f01cfea414140de5dae2223b00361a396177a9cb410ff61f20015ad" := by
  decide

set_option maxRecDepth 100000 in
theorem sha256Sum_two_blocks :
    hexEncodeToString (sha256Sum (str "abcdbcdecdefdefgefghfghighijhijkijkljklmklmnlmnomnopnopq")) =
      str "248d6a61d20638b8e5c026930c3e6039a33ce45964ff2167f6ecedd419db06c1" := by
  decide

set_option maxRecDepth 100000 in
theorem sha512Sum_abc :
    hexEncodeToString (sha512Sum (str "abc")) =
      str ("ddaf35a193617abacc417349ae20413112e6fa4e89a97ea20a9eeee64b55d39a" ++
        "2192992a274fc1a836ba3c23a3feebbd454d4423643ce80e2a9ac94fa54ca49f") := by
  decide

set_option maxRecDepth 100000 in
theorem sha512Sum_two_blocks :
    hexEncodeToString (sha512Sum (str ("abcdefghbcdefghicdefghijdefghijkefghijklfghijklmghijklmn" ++
        "hijklmnoijklmnopjklmnopqklmnopqrlmnopqrsmnopqrstnopqrstu"))) =
      str ("8e959b75dae313da8cf4f72814fc143f8f7779c6eb9f7fa17299aeadb6889018" ++
        "501d289e4900f7e4331b99dec4b5433ac7d329eeb6dd26545e96e55b874be909") := by
  decide


/-! ## `strings.Index` -/

theorem Index_eq_none_iff (s sep : Bytes) : Index s sep = none ↔ ¬ sep <:+: s := by
  induction s with
  | nil =>
    cases sep with
    | nil => simp [Index]
    | cons x sep => simp [Index]
  | cons c s ih =>
    simp only [Index]
    split
    · rename_i h
      have hp : sep <+: c :: s := List.isPrefixOf_iff_prefix.mp h
      simp [hp.isInfix]
    · rename_i h
      have hp : ¬ sep <+: c :: s := fun hp => h (List.isPrefixOf_iff_prefix.mpr hp)
      simp [List.infix_cons_iff, hp, ih]

/-- Where `Index` finds the separator, the string splits there, and no occurrence of the
separator starts earlier. -/
theorem Index_eq_some_spec (sep : Bytes) :
    ∀ (s : Bytes) (m : Nat), Index s sep = some m →
      ∃ a b, s = a ++ sep ++ b ∧ a.length = m ∧
        ∀ a2 b2, s = a2 ++ sep ++ b2 → m ≤ a2.length := by
  intro s
  induction s with
  | nil =>
    intro m h
    cases sep with
    | nil =>
      simp [Index] at h
      exact ⟨[], [], by simp, by simp [h], by intro a2 b2 _; omega⟩
    | cons x sep => simp [Index] at h
  | cons c s ih =>
    intro m h
    simp only [Index] at h
    split at h
    · rename_i hp
      obtain ⟨b, hb⟩ := List.isPrefixOf_iff_prefix.mp hp
      have hm : m = 0 := by simpa using h.symm
      exact ⟨[], b, by simp [hb], by simp [hm], by intro a2 b2 _; omega⟩
    · rename_i hp
      cases hi : Index s sep with
      | none => simp [hi] at h
      | some k =>
        simp [hi] at h
        obtain ⟨a, b, hs, hlen, hmin⟩ := ih k hi
        refine ⟨c :: a, b, by simp [hs], by simp [hlen, h], ?_⟩
        intro a2 b2 h2
        cases a2 with
        | nil =>
          exfalso
          apply hp
          apply List.isPrefixOf_iff_prefix.mpr
          exact ⟨b2, by simpa using h2.symm⟩
        | cons x a3 =>
          simp only [List.cons_append, List.cons.injEq] at h2
          have := hmin a3 b2 (by simpa using h2.2)
          simp
          omega

theorem Index_isSome_of_present (s sep : Bytes) (h : sep <:+: s) : ∃ m, Index s sep = some m := by
  cases hi : Index s sep with
  | none => exact absurd h ((Index_eq_none_iff s sep).mp hi)
  | some m => exact ⟨m, rfl⟩

theorem Index_of_first (a sep b : Bytes)
    (hmin : ∀ a2 b2, a ++ sep ++ b = a2 ++ sep ++ b2 → a.length ≤ a2.length) :
    Index (a ++ sep ++ b) sep = some a.length := by
  obtain ⟨m, hm⟩ := Index_isSome_of_present (a ++ sep ++ b) sep ⟨a, b, rfl⟩
  obtain ⟨a2, b2, hs, hlen, hle⟩ := Index_eq_some_spec sep _ m hm
  have h1 : m ≤ a.length := hle a b rfl
  have h2 : a.length ≤ a2.length := hmin a2 b2 hs
  rw [hm]
  congr 1
  omega

theorem Index_single_of_not_mem (c : UInt8) (s : Bytes) (h : c ∉ s) : Index s [c] = none := by
  rw [Index_eq_none_iff]
  intro hin
  exact h (hin.subset (by simp))

theorem Index_single_append (c : UInt8) (a b : Bytes) (h : c ∉ a) :
    Index (a ++ c :: b) [c] = some a.length := by
  induction a with
  | nil => simp [Index, List.isPrefixOf]
  | cons x a ih =>
    have hx : ¬ c = x := fun hcx => h (by simp [hcx])
    have ha : c ∉ a := fun hca => h (List.mem_cons_of_mem _ hca)
    simp [Index, List.isPrefixOf, hx, ih ha]

/-! ## `strings.SplitAfterN` with a count of two, and `strings.Split` on one byte -/

theorem SplitAfterN_two_of_absent (s sep : Bytes) (h : ¬ sep <:+: s) :
    SplitAfterN s sep 2 = [s] := by
  have hi := (Index_eq_none_iff s sep).mpr h
  cases s with
  | nil => simp [SplitAfterN, genSplit, genSplit.loop]
  | cons c s => simp [SplitAfterN, genSplit, genSplit.loop, hi]

theorem genSplit_two (s sep : Bytes) (k : Nat) (hs : s ≠ []) :
    genSplit s sep k 2 = genSplit.loop sep k 1 s := by
  have hlen : 0 < s.length := List.length_pos.mpr hs
  have hn : ¬ ((2 : Nat) > s.length + 1) := by omega
  have h2 : ¬ ((2 : Int) < 0) := by decide
  have h0 : ¬ ((2 : Int) = 0) := by decide
  have ht : (2 : Int).toNat = 2 := rfl
  simp only [genSplit, h0, h2, if_false, ht, hn]

theorem SplitAfterN_two_of_first (a sep b : Bytes) (hsep : sep ≠ [])
    (hmin : ∀ a2 b2, a ++ sep ++ b = a2 ++ sep ++ b2 → a.length ≤ a2.length) :
    SplitAfterN (a ++ sep ++ b) sep 2 = [a ++ sep, b] := by
  have hi := Index_of_first a sep b hmin
  have hne : a ++ sep ++ b ≠ [] := by simp [hsep]
  have htake : List.take (a.length + sep.length) (a ++ sep ++ b) = a ++ sep :=
    List.take_left' (by simp)
  have hdrop : List.drop (a.length + sep.length) (a ++ sep ++ b) = b :=
    List.drop_left' (by simp)
  rw [SplitAfterN, genSplit_two _ _ _ hne]
  simp only [genSplit.loop, hi, htake, hdrop]

theorem genSplit_loop_single_of_not_mem (c : UInt8) (k : Nat) (s : Bytes) (h : c ∉ s) :
    genSplit.loop [c] 0 k s = [s] := by
  cases k with
  | zero => rfl
  | succ k => simp [genSplit.loop, Index_single_of_not_mem c s h]

theorem genSplit_loop_single_append (c : UInt8) (k : Nat) (a b : Bytes) (h : c ∉ a) :
    genSplit.loop [c] 0 (k + 1) (a ++ c :: b) = a :: genSplit.loop [c] 0 k b := by
  simp [genSplit.loop, Index_single_append c a b h]

theorem Split_single (c : UInt8) (s : Bytes) :
    Split s [c] = genSplit.loop [c] 0 (s.count c) s := by
  have hle : s.count c ≤ s.length := List.count_le_length c s
  have hn : ¬ (s.count c + 1 > s.length + 1) := by omega
  simp [Split, genSplit, Count, hn]

theorem Split_of_not_mem (c : UInt8) (s : Bytes) (h : c ∉ s) : Split s [c] = [s] := by
  rw [Split_single, genSplit_loop_single_of_not_mem c _ s h]

theorem Split_append_cons (c : UInt8) (a b : Bytes) (h : c ∉ a) :
    Split (a ++ c :: b) [c] = a :: Split b [c] := by
  rw [Split_single, Split_single]
  have hc : (a ++ c :: b).count c = b.count c + 1 := by
    simp [List.count_append, List.count_eq_zero_of_not_mem h]
  rw [hc, genSplit_loop_single_append c _ a b h]

theorem length_Split_aux (c : UInt8) :
    ∀ (n : Nat) (s : Bytes), s.length = n → (Split s [c]).length = s.count c + 1 := by
  intro n
  induction n using Nat.strong_induction_on with
  | _ n ih =>
    intro s hn
    by_cases hmem : c ∈ s
    · obtain ⟨a, b, hs, ha⟩ := List.eq_append_cons_of_mem hmem
      subst hs
      rw [Split_append_cons c a b ha]
      have := ih b.length (by rw [← hn]; simp; omega) b rfl
      simp [this, List.count_append, List.count_eq_zero_of_not_mem ha]
    · rw [Split_of_not_mem c s hmem]
      simp [List.count_eq_zero_of_not_mem hmem]

theorem length_Split (c : UInt8) (s : Bytes) : (Split s [c]).length = s.count c + 1 :=
  length_Split_aux c s.length s rfl

/-! ## The scheme dispatch of `LoadFileOrURL` and `LoadFileOrURLUsingReader` -/

/-- A prefix of the reference that ends in the separator and is the shortest such prefix
is the first part of the split, and the rest of the reference is the second. -/
theorem SplitAfterN_of_shortest (r t sep : Bytes) (hsep : sep ≠ [])
    (hpre : t <+: r) (hsuf : sep <:+ t)
    (hmin : ∀ t2, t2 <+: r → sep <:+ t2 → t.length ≤ t2.length) :
    ∃ b, r = t ++ b ∧ SplitAfterN r sep 2 = [t, b] := by
  obtain ⟨b, hb⟩ := hpre
  obtain ⟨a, ha⟩ := hsuf
  subst ha
  subst hb
  refine ⟨b, rfl, SplitAfterN_two_of_first a sep b hsep ?_⟩
  intro a2 b2 heq
  have := hmin (a2 ++ sep) ⟨b2, heq.symm⟩ ⟨a2, rfl⟩
  simpa using this

/-- A reference that contains the separator has a shortest prefix ending in it. -/
theorem exists_shortest (r sep : Bytes) (h : sep <:+: r) :
    ∃ t, t <+: r ∧ sep <:+ t ∧ ∀ t2, t2 <+: r → sep <:+ t2 → t.length ≤ t2.length := by
  obtain ⟨m, hm⟩ := Index_isSome_of_present r sep h
  obtain ⟨a, b, hs, hlen, hle⟩ := Index_eq_some_spec sep r m hm
  refine ⟨a ++ sep, ⟨b, hs.symm⟩, ⟨a, rfl⟩, ?_⟩
  rintro t2 ⟨b2, hb2⟩ ⟨a2, ha2⟩
  subst ha2
  have := hle a2 b2 hb2.symm
  simp
  omega

theorem LoadFileOrURL_of_split (w : World) (r t b : Bytes)
    (h : SplitAfterN r (str "://") 2 = [t, b]) :
    LoadFileOrURL w r =
      if t = str "http://" ∨ t = str "https://" then
        match w.Get r with
        | .error err => .ret [.Get r] none (some err)
        | .ok resp =>
          match ioReadAll resp.Body with
          | (_, some err) => .ret [.Get r] none (some err)
          | (raw, none) => .ret [.Get r] raw none
      else if t = str "env://" then
        match w.LookupEnv b with
        | none =>
          .ret [.LookupEnv b] none
            (some (Errorf (str "loading URL: env var $%s not found") [b]))
        | some value => .ret [.LookupEnv b] (some value) none
      else .ret [] none (some (.UnrecognizedSchemeError t)) := by
  simp only [LoadFileOrURL, h]
  simp

theorem LoadFileOrURLUsingReader_of_split (w : World) (r t b : Bytes)
    (h : SplitAfterN r (str "://") 2 = [t, b]) :
    LoadFileOrURLUsingReader w r =
      if t = str "http://" ∨ t = str "https://" then
        match w.Get r with
        | .error err => .ret [.Get r] none (some err)
        | .ok resp => .ret [.Get r] (some resp.Body) none
      else if t = str "env://" then
        match w.LookupEnv b with
        | none =>
          .ret [.LookupEnv b] none
            (some (Errorf (str "loading URL: env var $%s not found") [b]))
        | some value => .ret [.LookupEnv b] (some (stringsNewReader value)) none
      else .ret [] none (some (.UnrecognizedSchemeError t)) := by
  simp only [LoadFileOrURLUsingReader, h]
  simp

theorem LoadFileOrURL_of_single (w : World) (r : Bytes)
    (h : SplitAfterN r (str "://") 2 = [r]) :
    LoadFileOrURL w r =
      match osReadFile w (w.Clean r) with
      | (_, some err) => .ret [.ReadFile (w.Clean r)] none (some err)
      | (raw, none) => .ret [.ReadFile (w.Clean r)] raw none := by
  simp only [LoadFileOrURL, h]
  simp

theorem LoadFileOrURLUsingReader_of_single (w : World) (r : Bytes)
    (h : SplitAfterN r (str "://") 2 = [r]) :
    LoadFileOrURLUsingReader w r =
      match w.Open (w.Clean r) with
      | .error err => .ret [.Open (w.Clean r)] none (some err)
      | .ok file => .ret [.Open (w.Clean r)] (some file) none := by
  simp only [LoadFileOrURLUsingReader, h]
  simp

/-- The split into at most two parts gives one part or two. -/
theorem SplitAfterN_two_cases (r sep : Bytes) (hsep : sep ≠ []) :
    SplitAfterN r sep 2 = [r] ∨ ∃ t b, SplitAfterN r sep 2 = [t, b] := by
  by_cases h : sep <:+: r
  · obtain ⟨t, hpre, hsuf, hmin⟩ := exists_shortest r sep h
    obtain ⟨b, _, hb⟩ := SplitAfterN_of_shortest r t sep hsep hpre hsuf hmin
    exact Or.inr ⟨t, b, hb⟩
  · exact Or.inl (SplitAfterN_two_of_absent r sep h)

/-- The function `LoadFileOrURL` returns either an error and no bytes, or bytes and no
error; it does not panic. -/
theorem LoadFileOrURL_cases (w : World) (r : Bytes) :
    (∃ calls e, LoadFileOrURL w r = .ret calls none (some e)) ∨
      (∃ calls c, LoadFileOrURL w r = .ret calls (some c) none) := by
  rcases SplitAfterN_two_cases r (str "://") (by decide) with h | ⟨t, b, h⟩
  · rw [LoadFileOrURL_of_single w r h]
    simp only [osReadFile, ioReadAll]
    cases w.Open (w.Clean r) with
    | error err => exact Or.inl ⟨_, err, rfl⟩
    | ok f =>
      cases hf : f.err with
      | none => simp [hf]
      | some e => simp [hf]
  · rw [LoadFileOrURL_of_split w r t b h]
    split_ifs
    · cases w.Get r with
      | error err => exact Or.inl ⟨_, err, rfl⟩
      | ok resp =>
        simp only [ioReadAll]
        cases hf : resp.Body.err with
        | none => simp [hf]
        | some e => simp [hf]
    · cases w.LookupEnv b with
      | none => exact Or.inl ⟨_, _, rfl⟩
      | some v => exact Or.inr ⟨_, v, rfl⟩
    · exact Or.inl ⟨_, _, rfl⟩

/-! ## The checksum specifier -/

theorem hextable_getD_ne_colon (i : Nat) : hextable.getD i 0 ≠ 58 := by
  by_cases h : i < 16
  · interval_cases i <;> decide
  · have hlen : hextable.length ≤ i := by
      have : hextable.length = 16 := by decide
      omega
    rw [List.getD_eq_default _ _ hlen]
    decide

theorem colon_not_mem_hexEncodeToString (x : Bytes) : (58 : UInt8) ∉ hexEncodeToString x := by
  induction x with
  | nil => simp [hexEncodeToString]
  | cons v rest ih =>
    simp only [hexEncodeToString, List.mem_cons, not_or]
    exact ⟨fun h => hextable_getD_ne_colon _ h.symm, fun h => hextable_getD_ne_colon _ h.symm, ih⟩

theorem LoadFileOrURLWithChecksum_of_bare (w : World) (fileRef d : Bytes)
    (hd : (58 : UInt8) ∉ d) :
    LoadFileOrURLWithChecksum w fileRef d =
      LoadFileOrURLWithChecksum.verify w fileRef d sha256New := by
  simp [LoadFileOrURLWithChecksum, str_colon, Split_of_not_mem 58 d hd]

theorem LoadFileOrURLWithChecksum_of_algo (w : World) (fileRef a d : Bytes)
    (ha : (58 : UInt8) ∉ a) (hd : (58 : UInt8) ∉ d) :
    LoadFileOrURLWithChecksum w fileRef (a ++ 58 :: d) =
      if a = str "sha256" then LoadFileOrURLWithChecksum.verify w fileRef d sha256New
      else if a = str "sha512" then LoadFileOrURLWithChecksum.verify w fileRef d sha512New
      else .ret [] none (some (Errorf (str "unsupported checksum algorithm: %s") [a])) := by
  simp [LoadFileOrURLWithChecksum, str_colon, Split_append_cons 58 a d ha,
    Split_of_not_mem 58 d hd]

theorem LoadFileOrURLWithChecksum_of_many (w : World) (fileRef checksum : Bytes)
    (h : 2 ≤ checksum.count 58) :
    LoadFileOrURLWithChecksum w fileRef checksum =
      .ret [] none
        (some (Errorf (str "wrong checksum input format, must have at most 1 colon: %s")
          [checksum])) := by
  have hlen := length_Split 58 checksum
  have h3 : (Split checksum [58]).length ≥ 3 := by omega
  simp [LoadFileOrURLWithChecksum, str_colon, h3]

theorem verify_of_error (w : World) (fileRef d : Bytes) (algo : Hash) (calls : List Call)
    (v : Option Bytes) (e : Error) (h : LoadFileOrURL w fileRef = .ret calls v (some e)) :
    LoadFileOrURLWithChecksum.verify w fileRef d algo = .ret calls none (some e) := by
  simp [LoadFileOrURLWithChecksum.verify, h]

theorem verify_of_content (w : World) (fileRef d : Bytes) (algo : Hash) (calls : List Call)
    (v : Option Bytes) (h : LoadFileOrURL w fileRef = .ret calls v none) :
    LoadFileOrURLWithChecksum.verify w fileRef d algo =
      if hexEncodeToString ((algo.Write v).Sum none) ≠ d then
        .ret calls none
          (some (Errorf (str "incorrect checksum for file %s: expected %s but got %s")
            [fileRef, d, hexEncodeToString ((algo.Write v).Sum none)]))
      else .ret calls v none := by
  simp [LoadFileOrURLWithChecksum.verify, h]

theorem Sum_sha256New (c : Bytes) : (sha256New.Write (some c)).Sum none = sha256Sum c := by
  simp [sha256New, Hash.Write, Hash.Sum]

theorem Sum_sha512New (c : Bytes) : (sha512New.Write (some c)).Sum none = sha512Sum c := by
  simp [sha512New, Hash.Write, Hash.Sum]

theorem str_sha256_colon : str "sha256:" = str "sha256" ++ [58] := by decide

theorem str_sha512_colon : str "sha512:" = str "sha512" ++ [58] := by decide

/-! ## The messages of the errors -/

theorem Errorf_wrong_format (checksum : Bytes) :
    Errorf (str "wrong checksum input format, must have at most 1 colon: %s") [checksum] =
      .errorString (str "wrong checksum input format, must have at most 1 colon: " ++ checksum) := by
  have h : str "wrong checksum input format, must have at most 1 colon: %s" =
      str "wrong checksum input format, must have at most 1 colon: " ++ [37, 115] := by decide
  rw [Errorf, h, Sprintf_one _ _ (by decide)]

theorem Errorf_unsupported (a : Bytes) :
    Errorf (str "unsupported checksum algorithm: %s") [a] =
      .errorString (str "unsupported checksum algorithm: " ++ a) := by
  have h : str "unsupported checksum algorithm: %s" =
      str "unsupported checksum algorithm: " ++ [37, 115] := by decide
  rw [Errorf, h, Sprintf_one _ _ (by decide)]

theorem Errorf_incorrect (fileRef expected computed : Bytes) :
    Errorf (str "incorrect checksum for file %s: expected %s but got %s")
        [fileRef, expected, computed] =
      .errorString (str "incorrect checksum for file " ++ fileRef ++ str ": expected " ++ expected
        ++ str " but got " ++ computed) := by
  have h : str "incorrect checksum for file %s: expected %s but got %s" =
      str "incorrect checksum for file " ++ 37 :: 115 :: (str ": expected " ++ 37 :: 115 ::
        (str " but got " ++ [37, 115])) := by decide
  rw [Errorf, h, Sprintf_append_verb _ _ _ _ (by decide), Sprintf_append_verb _ _ _ _ (by decide),
    Sprintf_one _ _ (by decide)]
  simp

theorem Errorf_env_not_found (envVar : Bytes) :
    Errorf (str "loading URL: env var $%s not found") [envVar] =
      .errorString (str "loading URL: env var $" ++ envVar ++ str " not found") := by
  have h : str "loading URL: env var $%s not found" =
      str "loading URL: env var $" ++ 37 :: 115 :: str " not found" := by decide
  rw [Errorf, h, Sprintf_append_verb _ _ _ _ (by decide), Sprintf_of_not_mem _ _ (by decide)]
  simp

theorem Error_UnrecognizedSchemeError (Scheme : Bytes) :
    (Error.UnrecognizedSchemeError Scheme).Error =
      str "loading URL: unrecognized scheme: " ++ Scheme := by
  have h : str "loading URL: unrecognized scheme: %s" =
      str "loading URL: unrecognized scheme: " ++ [37, 115] := by decide
  rw [Error.Error, h, Sprintf_one _ _ (by decide)]

/-! ## Checksum verification: main results -/

/-- A string has no colon, or exactly one, or at least two. -/
theorem colon_cases (s : Bytes) :
    (58 : UInt8) ∉ s ∨ (∃ a d, s = a ++ 58 :: d ∧ (58 : UInt8) ∉ a ∧ (58 : UInt8) ∉ d) ∨
      2 ≤ s.count 58 := by
  by_cases h : (58 : UInt8) ∈ s
  · obtain ⟨a, d, hs, ha⟩ := List.eq_append_cons_of_mem h
    by_cases hd : (58 : UInt8) ∈ d
    · right; right
      subst hs
      have := List.count_pos_iff.mpr hd
      simp [List.count_append]
      omega
    · exact Or.inr (Or.inl ⟨a, d, hs, ha, hd⟩)
  · exact Or.inl h

theorem verify_success (w : World) (fileRef d : Bytes) (algo : Hash) (calls : List Call)
    (val : Option Bytes)
    (h : LoadFileOrURLWithChecksum.verify w fileRef d algo = .ret calls val none) :
    ∃ c, val = some c ∧ LoadFileOrURL w fileRef = .ret calls (some c) none ∧
      hexEncodeToString ((algo.Write (some c)).Sum none) = d := by
  rcases LoadFileOrURL_cases w fileRef with ⟨calls2, e, hl⟩ | ⟨calls2, c, hl⟩
  · rw [verify_of_error w fileRef d algo calls2 none e hl] at h
    simp at h
  · rw [verify_of_content w fileRef d algo calls2 (some c) hl] at h
    split_ifs at h with hne
    · simp at h
    · simp only [Outcome.ret.injEq, and_true] at h
      obtain ⟨hc, hv⟩ := h
      subst hc
      refine ⟨c, hv.symm, hl, ?_⟩
      simpa using hne

/-- C1 (soundness of verification). If `LoadFileOrURLWithChecksum` returns without error,
then what it returns is content `c`, it is exactly what `LoadFileOrURL` returns for the same
reference (after the same backend calls), and the specifier is `sha512:` followed by the
lowercase hex SHA-512 digest of `c`, or `sha256:` followed by the lowercase hex SHA-256
digest of `c`, or, having no colon (byte 58), the lowercase hex SHA-256 digest of `c`
itself. -/
theorem LoadFileOrURLWithChecksum_sound (w : World) (fileRef checksum : Bytes)
    (calls : List Call) (val : Option Bytes)
    (h : LoadFileOrURLWithChecksum w fileRef checksum = .ret calls val none) :
    ∃ c, val = some c ∧ LoadFileOrURL w fileRef = .ret calls (some c) none ∧
      ((∃ digest, checksum = str "sha512:" ++ digest ∧
          hexEncodeToString (sha512Sum c) = digest) ∨
       (∃ digest, checksum = str "sha256:" ++ digest ∧
          hexEncodeToString (sha256Sum c) = digest) ∨
       ((58 : UInt8) ∉ checksum ∧ hexEncodeToString (sha256Sum c) = checksum)) := by
  rcases colon_cases checksum with h0 | ⟨a, d, hs, ha, hd⟩ | h2
  · rw [LoadFileOrURLWithChecksum_of_bare w fileRef checksum h0] at h
    obtain ⟨c, hv, hl, hsum⟩ := verify_success w fileRef checksum _ calls val h
    rw [Sum_sha256New] at hsum
    exact ⟨c, hv, hl, Or.inr (Or.inr ⟨h0, hsum⟩)⟩
  · subst hs
    rw [LoadFileOrURLWithChecksum_of_algo w fileRef a d ha hd] at h
    split_ifs at h with h256 h512
    · obtain ⟨c, hv, hl, hsum⟩ := verify_success w fileRef d _ calls val h
      rw [Sum_sha256New] at hsum
      refine ⟨c, hv, hl, Or.inr (Or.inl ⟨d, ?_, hsum⟩)⟩
      rw [str_sha256_colon, h256]; simp
    · obtain ⟨c, hv, hl, hsum⟩ := verify_success w fileRef d _ calls val h
      rw [Sum_sha512New] at hsum
      refine ⟨c, hv, hl, Or.inl ⟨d, ?_, hsum⟩⟩
      rw [str_sha512_colon, h512]; simp
    · simp at h
  · rw [LoadFileOrURLWithChecksum_of_many w fileRef checksum h2] at h
    simp at h

theorem LoadFileOrURLWithChecksum_sound_witness :
    ∃ c, some (str "hello") = some c ∧
      LoadFileOrURL exampleWorld (str "hello.txt") =
        .ret [.ReadFile (str "hello.txt")] (some c) none ∧
      ((∃ digest, str "sha256:2cf24dba5fb0a30e26e83b2ac5b9e29e1b161e5c1fa7425e73043362938b9824" =
            str "sha512:" ++ digest ∧ hexEncodeToString (sha512Sum c) = digest) ∨
       (∃ digest, str "sha256:2cf24dba5fb0a30e26e83b2ac5b9e29e1b161e5c1fa7425e73043362938b9824" =
            str "sha256:" ++ digest ∧ hexEncodeToString (sha256Sum c) = digest) ∨
       ((58 : UInt8) ∉ str "sha256:2cf24dba5fb0a30e26e83b2ac5b9e29e1b161e5c1fa7425e73043362938b9824" ∧
          hexEncodeToString (sha256Sum c) =
            str "sha256:2cf24dba5fb0a30e26e83b2ac5b9e29e1b161e5c1fa7425e73043362938b9824")) :=
  LoadFileOrURLWithChecksum_sound exampleWorld (str "hello.txt")
    (str "sha256:2cf24dba5fb0a30e26e83b2ac5b9e29e1b161e5c1fa7425e73043362938b9824")
    [.ReadFile (str "hello.txt")] (some (str "hello")) (by decide)

theorem verify_mismatch (w : World) (fileRef d : Bytes) (algo : Hash) (calls : List Call)
    (c : Bytes) (hload : LoadFileOrURL w fileRef = .ret calls (some c) none)
    (hne : d ≠ hexEncodeToString ((algo.Write (some c)).Sum none)) :
    LoadFileOrURLWithChecksum.verify w fileRef d algo =
      .ret calls none
        (some (.errorString (str "incorrect checksum for file " ++ fileRef ++ str ": expected "
          ++ d ++ str " but got " ++ hexEncodeToString ((algo.Write (some c)).Sum none)))) := by
  rw [verify_of_content w fileRef d algo calls (some c) hload, if_pos (Ne.symm hne),
    Errorf_incorrect]

theorem verify_match (w : World) (fileRef : Bytes) (algo : Hash) (calls : List Call)
    (c : Bytes) (hload : LoadFileOrURL w fileRef = .ret calls (some c) none) :
    LoadFileOrURLWithChecksum.verify w fileRef
        (hexEncodeToString ((algo.Write (some c)).Sum none)) algo =
      .ret calls (some c) none := by
  rw [verify_of_content w fileRef _ algo calls (some c) hload]
  simp

theorem LoadFileOrURLWithChecksum_of_sha256 (w : World) (fileRef d : Bytes)
    (hd : (58 : UInt8) ∉ d) :
    LoadFileOrURLWithChecksum w fileRef (str "sha256:" ++ d) =
      LoadFileOrURLWithChecksum.verify w fileRef d sha256New := by
  have h := LoadFileOrURLWithChecksum_of_algo w fileRef (str "sha256") d (by decide) hd
  rw [if_pos rfl] at h
  rw [← h, str_sha256_colon]
  simp

theorem LoadFileOrURLWithChecksum_of_sha512 (w : World) (fileRef d : Bytes)
    (hd : (58 : UInt8) ∉ d) :
    LoadFileOrURLWithChecksum w fileRef (str "sha512:" ++ d) =
      LoadFileOrURLWithChecksum.verify w fileRef d sha512New := by
  have h := LoadFileOrURLWithChecksum_of_algo w fileRef (str "sha512") d (by decide) hd
  rw [if_neg (by decide), if_pos rfl] at h
  rw [← h, str_sha512_colon]
  simp

/-- C2 (a mismatch is rejected). Let `LoadFileOrURL` resolve the reference to content `c`,
and let `digest` contain no colon (byte 58). If `digest` is not the lowercase hex SHA-256
digest of `c`, then the specifiers `digest` and `sha256:digest` both make
`LoadFileOrURLWithChecksum` return no bytes and the error with the message
`incorrect checksum for file <ref>: expected <digest> but got <computed>`; and the same for
`sha512:digest` with the SHA-512 digest. -/
theorem LoadFileOrURLWithChecksum_mismatch (w : World) (fileRef digest : Bytes)
    (calls : List Call) (c : Bytes)
    (hload : LoadFileOrURL w fileRef = .ret calls (some c) none)
    (hd : (58 : UInt8) ∉ digest) :
    (digest ≠ hexEncodeToString (sha256Sum c) →
      LoadFileOrURLWithChecksum w fileRef digest =
        .ret calls none
          (some (.errorString (str "incorrect checksum for file " ++ fileRef ++
            str ": expected " ++ digest ++ str " but got " ++
            hexEncodeToString (sha256Sum c)))) ∧
      LoadFileOrURLWithChecksum w fileRef (str "sha256:" ++ digest) =
        .ret calls none
          (some (.errorString (str "incorrect checksum for file " ++ fileRef ++
            str ": expected " ++ digest ++ str " but got " ++
            hexEncodeToString (sha256Sum c))))) ∧
    (digest ≠ hexEncodeToString (sha512Sum c) →
      LoadFileOrURLWithChecksum w fileRef (str "sha512:" ++ digest) =
        .ret calls none
          (some (.errorString (str "incorrect checksum for file " ++ fileRef ++
            str ": expected " ++ digest ++ str " but got " ++
            hexEncodeToString (sha512Sum c))))) := by
  refine ⟨fun hne => ⟨?_, ?_⟩, fun hne => ?_⟩
  · rw [LoadFileOrURLWithChecksum_of_bare w fileRef digest hd, ← Sum_sha256New]
    exact verify_mismatch w fileRef digest sha256New calls c hload (by rwa [Sum_sha256New])
  · rw [LoadFileOrURLWithChecksum_of_sha256 w fileRef digest hd, ← Sum_sha256New]
    exact verify_mismatch w fileRef digest sha256New calls c hload (by rwa [Sum_sha256New])
  · rw [LoadFileOrURLWithChecksum_of_sha512 w fileRef digest hd, ← Sum_sha512New]
    exact verify_mismatch w fileRef digest sha512New calls c hload (by rwa [Sum_sha512New])

theorem LoadFileOrURLWithChecksum_mismatch_witness :
    LoadFileOrURLWithChecksum exampleWorld (str "hello.txt")
        (str "sha256:" ++
          str "2cf24dba5fb0a30e26e83b2ac5b9e29e1b161e5c1fa7425e73043362938b9825") =
      .ret [.ReadFile (str "hello.txt")] none
        (some (.errorString (str "incorrect checksum for file " ++ str "hello.txt" ++
          str ": expected " ++
          str "2cf24dba5fb0a30e26e83b2ac5b9e29e1b161e5c1fa7425e73043362938b9825" ++
          str " but got " ++ hexEncodeToString (sha256Sum (str "hello"))))) ∧
    LoadFileOrURLWithChecksum exampleWorld (str "hello.txt")
        (str "sha512:" ++
          str "2cf24dba5fb0a30e26e83b2ac5b9e29e1b161e5c1fa7425e73043362938b9825") =
      .ret [.ReadFile (str "hello.txt")] none
        (some (.errorString (str "incorrect checksum for file " ++ str "hello.txt" ++
          str ": expected " ++
          str "2cf24dba5fb0a30e26e83b2ac5b9e29e1b161e5c1fa7425e73043362938b9825" ++
          str " but got " ++ hexEncodeToString (sha512Sum (str "hello"))))) :=
  ⟨((LoadFileOrURLWithChecksum_mismatch exampleWorld (str "hello.txt")
      (str "2cf24dba5fb0a30e26e83b2ac5b9e29e1b161e5c1fa7425e73043362938b9825")
      [.ReadFile (str "hello.txt")] (str "hello") (by decide) (by decide)).1 (by decide)).2,
    (LoadFileOrURLWithChecksum_mismatch exampleWorld (str "hello.txt")
      (str "2cf24dba5fb0a30e26e83b2ac5b9e29e1b161e5c1fa7425e73043362938b9825")
      [.ReadFile (str "hello.txt")] (str "hello") (by decide) (by decide)).2 (by decide)⟩

/-- C3 (completeness of verification). If `LoadFileOrURL` resolves the reference to
content `c`, then `LoadFileOrURLWithChecksum` with `sha256:` followed by the lowercase hex
SHA-256 digest of `c`, and with `sha512:` followed by the lowercase hex SHA-512 digest of
`c`, returns exactly `c` and no error. -/
theorem LoadFileOrURLWithChecksum_complete (w : World) (fileRef : Bytes) (calls : List Call)
    (c : Bytes) (hload : LoadFileOrURL w fileRef = .ret calls (some c) none) :
    LoadFileOrURLWithChecksum w fileRef (str "sha256:" ++ hexEncodeToString (sha256Sum c)) =
        .ret calls (some c) none ∧
      LoadFileOrURLWithChecksum w fileRef (str "sha512:" ++ hexEncodeToString (sha512Sum c)) =
        .ret calls (some c) none := by
  constructor
  · rw [LoadFileOrURLWithChecksum_of_sha256 w fileRef _ (colon_not_mem_hexEncodeToString _),
      ← Sum_sha256New]
    exact verify_match w fileRef sha256New calls c hload
  · rw [LoadFileOrURLWithChecksum_of_sha512 w fileRef _ (colon_not_mem_hexEncodeToString _),
      ← Sum_sha512New]
    exact verify_match w fileRef sha512New calls c hload

theorem LoadFileOrURLWithChecksum_complete_witness :
    LoadFileOrURLWithChecksum exampleWorld (str "env://COSIGN_KEY")
        (str "sha256:" ++ hexEncodeToString (sha256Sum (str "secret"))) =
        .ret [.LookupEnv (str "COSIGN_KEY")] (some (str "secret")) none ∧
      LoadFileOrURLWithChecksum exampleWorld (str "env://COSIGN_KEY")
        (str "sha512:" ++ hexEncodeToString (sha512Sum (str "secret"))) =
        .ret [.LookupEnv (str "COSIGN_KEY")] (some (str "secret")) none :=
  LoadFileOrURLWithChecksum_complete exampleWorld (str "env://COSIGN_KEY")
    [.LookupEnv (str "COSIGN_KEY")] (str "secret") (by decide)

/-- C4 (a malformed checksum fails before any I/O). For every world, every reference and
every checksum string with two or more colons (byte 58), `LoadFileOrURLWithChecksum` makes no
backend call and returns no bytes and the error
`wrong checksum input format, must have at most 1 colon: <checksum>`; the outcome is the same
in every other world and for every other reference. -/
theorem LoadFileOrURLWithChecksum_malformed (w : World) (fileRef checksum : Bytes)
    (h : 2 ≤ checksum.count 58) :
    LoadFileOrURLWithChecksum w fileRef checksum =
        .ret [] none
          (some (.errorString
            (str "wrong checksum input format, must have at most 1 colon: " ++ checksum))) ∧
      ∀ (w2 : World) (fileRef2 : Bytes),
        LoadFileOrURLWithChecksum w2 fileRef2 checksum =
          LoadFileOrURLWithChecksum w fileRef checksum := by
  have key : ∀ (w2 : World) (fileRef2 : Bytes),
      LoadFileOrURLWithChecksum w2 fileRef2 checksum =
        .ret [] none
          (some (.errorString
            (str "wrong checksum input format, must have at most 1 colon: " ++ checksum))) := by
    intro w2 fileRef2
    rw [LoadFileOrURLWithChecksum_of_many w2 fileRef2 checksum h, Errorf_wrong_format]
  exact ⟨key w fileRef, fun w2 fileRef2 => by rw [key w2 fileRef2, key w fileRef]⟩

theorem LoadFileOrURLWithChecksum_malformed_witness :
    LoadFileOrURLWithChecksum exampleWorld (str "hello.txt") (str "a:b:c") =
        .ret [] none
          (some (.errorString
            (str "wrong checksum input format, must have at most 1 colon: " ++ str "a:b:c"))) ∧
      ∀ (w2 : World) (fileRef2 : Bytes),
        LoadFileOrURLWithChecksum w2 fileRef2 (str "a:b:c") =
          LoadFileOrURLWithChecksum exampleWorld (str "hello.txt") (str "a:b:c") :=
  LoadFileOrURLWithChecksum_malformed exampleWorld (str "hello.txt") (str "a:b:c") (by decide)

/-- C5 (an unsupported algorithm fails before any I/O). For every world, every reference
and every checksum `algo:digest` with exactly one colon (neither `algo` nor `digest` holds
byte 58) whose `algo` is neither `sha256` nor `sha512`, `LoadFileOrURLWithChecksum` makes no
backend call and returns no bytes and the error `unsupported checksum algorithm: <algo>`. -/
theorem LoadFileOrURLWithChecksum_unsupported (w : World) (fileRef algo digest : Bytes)
    (ha : (58 : UInt8) ∉ algo) (hd : (58 : UInt8) ∉ digest)
    (h256 : algo ≠ str "sha256") (h512 : algo ≠ str "sha512") :
    LoadFileOrURLWithChecksum w fileRef (algo ++ str ":" ++ digest) =
      .ret [] none
        (some (.errorString (str "unsupported checksum algorithm: " ++ algo))) := by
  have h := LoadFileOrURLWithChecksum_of_algo w fileRef algo digest ha hd
  rw [if_neg h256, if_neg h512, Errorf_unsupported] at h
  rw [← h, str_colon]
  simp

theorem LoadFileOrURLWithChecksum_unsupported_witness :
    LoadFileOrURLWithChecksum exampleWorld (str "hello.txt")
        (str "SHA256" ++ str ":" ++ str "abcd") =
      .ret [] none
        (some (.errorString (str "unsupported checksum algorithm: " ++ str "SHA256"))) :=
  LoadFileOrURLWithChecksum_unsupported exampleWorld (str "hello.txt") (str "SHA256")
    (str "abcd") (by decide) (by decide) (by decide) (by decide)

/-- C6 (a bare digest means SHA-256). For every world, every reference and every checksum
string `d` without a colon (byte 58), `LoadFileOrURLWithChecksum` gives the same outcome
(backend calls, bytes, error) for `d` as for `sha256:d`. -/
theorem LoadFileOrURLWithChecksum_bare_eq_sha256 (w : World) (fileRef d : Bytes)
    (hd : (58 : UInt8) ∉ d) :
    LoadFileOrURLWithChecksum w fileRef d =
      LoadFileOrURLWithChecksum w fileRef (str "sha256:" ++ d) := by
  rw [LoadFileOrURLWithChecksum_of_bare w fileRef d hd,
    LoadFileOrURLWithChecksum_of_sha256 w fileRef d hd]

theorem LoadFileOrURLWithChecksum_bare_eq_sha256_witness :
    LoadFileOrURLWithChecksum exampleWorld (str "hello.txt") (str "00ff") =
      LoadFileOrURLWithChecksum exampleWorld (str "hello.txt") (str "sha256:" ++ str "00ff") :=
  LoadFileOrURLWithChecksum_bare_eq_sha256 exampleWorld (str "hello.txt") (str "00ff")
    (by decide)

/-- C7 (resolution failures pass through unchanged). If `LoadFileOrURL` fails on the
reference with error `e`, then for every digest `d` without a colon (byte 58) the specifiers
`d`, `sha256:d` and `sha512:d` all make `LoadFileOrURLWithChecksum` return no bytes and that
same error `e`, after the same backend calls. -/
theorem LoadFileOrURLWithChecksum_resolution_error (w : World) (fileRef d : Bytes)
    (calls : List Call) (v : Option Bytes) (e : Error)
    (hload : LoadFileOrURL w fileRef = .ret calls v (some e)) (hd : (58 : UInt8) ∉ d) :
    LoadFileOrURLWithChecksum w fileRef d = .ret calls none (some e) ∧
      LoadFileOrURLWithChecksum w fileRef (str "sha256:" ++ d) = .ret calls none (some e) ∧
      LoadFileOrURLWithChecksum w fileRef (str "sha512:" ++ d) = .ret calls none (some e) := by
  refine ⟨?_, ?_, ?_⟩
  · rw [LoadFileOrURLWithChecksum_of_bare w fileRef d hd]
    exact verify_of_error w fileRef d _ calls v e hload
  · rw [LoadFileOrURLWithChecksum_of_sha256 w fileRef d hd]
    exact verify_of_error w fileRef d _ calls v e hload
  · rw [LoadFileOrURLWithChecksum_of_sha512 w fileRef d hd]
    exact verify_of_error w fileRef d _ calls v e hload

theorem LoadFileOrURLWithChecksum_resolution_error_witness :
    LoadFileOrURLWithChecksum exampleWorld (str "missing.txt") (str "00ff") =
        .ret [.ReadFile (str "missing.txt")] none
          (some (.external (str "open: no such file or directory"))) ∧
      LoadFileOrURLWithChecksum exampleWorld (str "missing.txt") (str "sha256:" ++ str "00ff") =
        .ret [.ReadFile (str "missing.txt")] none
          (some (.external (str "open: no such file or directory"))) ∧
      LoadFileOrURLWithChecksum exampleWorld (str "missing.txt") (str "sha512:" ++ str "00ff") =
        .ret [.ReadFile (str "missing.txt")] none
          (some (.external (str "open: no such file or directory"))) :=
  LoadFileOrURLWithChecksum_resolution_error exampleWorld (str "missing.txt") (str "00ff")
    [.ReadFile (str "missing.txt")] none
    (.external (str "open: no such file or directory")) (by decide) (by decide)

/-! ## Scheme dispatch: main results -/

/-- A prefix ending in the separator in which the separator occurs nowhere earlier is the
shortest prefix ending in the separator. -/
theorem shortest_of_first (r t sep : Bytes) (hsep : sep ≠ []) (hpre : t <+: r)
    (hsuf : sep <:+ t) (hfirst : ¬ sep <:+: t.dropLast) :
    ∀ t2, t2 <+: r → sep <:+ t2 → t.length ≤ t2.length := by
  intro t2 hpre2 hsuf2
  by_contra hlt
  have hseplen : 0 < sep.length := List.length_pos.mpr hsep
  have htlen : sep.length ≤ t.length := hsuf.length_le
  have hle : t2.length ≤ t.dropLast.length := by
    rw [List.length_dropLast]
    omega
  have h1 : t.dropLast <+: r := (List.dropLast_prefix t).trans hpre
  have h2 : t2 <+: t.dropLast := List.prefix_of_prefix_length_le hpre2 h1 hle
  exact hfirst (hsuf2.isInfix.trans h2.isInfix)

/-- In the shortest prefix ending in the separator, the separator occurs nowhere before
its final position. -/
theorem first_of_shortest (r t sep : Bytes) (hsep : sep ≠ []) (hpre : t <+: r)
    (hsuf : sep <:+ t) (hmin : ∀ t2, t2 <+: r → sep <:+ t2 → t.length ≤ t2.length) :
    ¬ sep <:+: t.dropLast := by
  rintro ⟨x, y, hxy⟩
  have hseplen : 0 < sep.length := List.length_pos.mpr hsep
  have htlen : sep.length ≤ t.length := hsuf.length_le
  have h1 : x ++ sep <+: t.dropLast := ⟨y, hxy⟩
  have h2 : x ++ sep <+: r := h1.trans ((List.dropLast_prefix t).trans hpre)
  have h3 := hmin (x ++ sep) h2 ⟨x, rfl⟩
  have h4 := h1.length_le
  rw [List.length_dropLast] at h4
  omega

theorem SplitAfterN_of_first (r t sep : Bytes) (hsep : sep ≠ []) (hpre : t <+: r)
    (hsuf : sep <:+ t) (hfirst : ¬ sep <:+: t.dropLast) :
    ∃ b, r = t ++ b ∧ SplitAfterN r sep 2 = [t, b] :=
  SplitAfterN_of_shortest r t sep hsep hpre hsuf (shortest_of_first r t sep hsep hpre hsuf hfirst)

/-- C8 (unrecognized scheme). Let `t` be the prefix of the reference up to and including
the first `://` (a prefix that ends in `://` and in which `://` occurs nowhere earlier). If
`t` is none of `http://`, `https://` and `env://`, then `LoadFileOrURL` and
`LoadFileOrURLUsingReader` both make no backend call and return no value and the
`UnrecognizedSchemeError` whose `Scheme` is `t`. -/
theorem unrecognized_scheme (w : World) (fileRef t : Bytes)
    (hpre : t <+: fileRef) (hsuf : str "://" <:+ t) (hfirst : ¬ str "://" <:+: t.dropLast)
    (hhttp : t ≠ str "http://") (hhttps : t ≠ str "https://") (henv : t ≠ str "env://") :
    LoadFileOrURL w fileRef = .ret [] none (some (.UnrecognizedSchemeError t)) ∧
      LoadFileOrURLUsingReader w fileRef = .ret [] none (some (.UnrecognizedSchemeError t)) := by
  obtain ⟨b, _, hsplit⟩ := SplitAfterN_of_first fileRef t (str "://") (by decide) hpre hsuf hfirst
  constructor
  · rw [LoadFileOrURL_of_split w fileRef t b hsplit, if_neg (by simp [hhttp, hhttps]),
      if_neg henv]
  · rw [LoadFileOrURLUsingReader_of_split w fileRef t b hsplit,
      if_neg (by simp [hhttp, hhttps]), if_neg henv]

theorem unrecognized_scheme_witness :
    LoadFileOrURL exampleWorld (str "./dir/a://b") =
        .ret [] none (some (.UnrecognizedSchemeError (str "./dir/a://"))) ∧
      LoadFileOrURLUsingReader exampleWorld (str "./dir/a://b") =
        .ret [] none (some (.UnrecognizedSchemeError (str "./dir/a://"))) :=
  unrecognized_scheme exampleWorld (str "./dir/a://b") (str "./dir/a://")
    (by decide) (by decide) (by decide) (by decide) (by decide) (by decide)

/-- C9 (the split is at the first `://`). If the reference `r` contains `://`, the
dispatcher's split of `r` has two parts `t` and `b` with `t ++ b = r`, where `t` ends in
`://`, `://` occurs nowhere in `t` before that final position, and `t` is the shortest
prefix of `r` ending in `://`. If `r` does not contain `://`, the split is the single part
`r`, and `r` is taken whole as a path: the one backend call is the file read (the file
open, in the streaming mode) of `Clean r`. So `env://a://b` looks up the variable `a://b`,
and `env://` has the empty body. -/
theorem scheme_split_first (r : Bytes) :
    (str "://" <:+: r →
      ∃ t b, SplitAfterN r (str "://") 2 = [t, b] ∧ t ++ b = r ∧ str "://" <:+ t ∧
        ¬ str "://" <:+: t.dropLast ∧
        ∀ t2, t2 <+: r → str "://" <:+ t2 → t.length ≤ t2.length) ∧
    (¬ str "://" <:+: r →
      SplitAfterN r (str "://") 2 = [r] ∧
        ∀ w : World, (LoadFileOrURL w r).calls = [.ReadFile (w.Clean r)] ∧
          (LoadFileOrURLUsingReader w r).calls = [.Open (w.Clean r)]) ∧
    (∀ w : World, (LoadFileOrURL w (str "env://a://b")).calls = [.LookupEnv (str "a://b")] ∧
      (LoadFileOrURLUsingReader w (str "env://a://b")).calls = [.LookupEnv (str "a://b")]) ∧
    SplitAfterN (str "env://") (str "://") 2 = [str "env://", []] := by
  refine ⟨?_, ?_, ?_, by decide⟩
  · intro h
    obtain ⟨t, hpre, hsuf, hmin⟩ := exists_shortest r (str "://") h
    obtain ⟨b, hb, hsplit⟩ := SplitAfterN_of_shortest r t (str "://") (by decide) hpre hsuf hmin
    exact ⟨t, b, hsplit, hb.symm, hsuf,
      first_of_shortest r t (str "://") (by decide) hpre hsuf hmin, hmin⟩
  · intro h
    have hsplit := SplitAfterN_two_of_absent r (str "://") h
    refine ⟨hsplit, fun w => ⟨?_, ?_⟩⟩
    · rw [LoadFileOrURL_of_single w r hsplit]
      simp only [osReadFile, ioReadAll]
      cases w.Open (w.Clean r) with
      | error err => rfl
      | ok f =>
        cases hf : f.err with
        | none => simp [hf, Outcome.calls]
        | some e => simp [hf, Outcome.calls]
    · rw [LoadFileOrURLUsingReader_of_single w r hsplit]
      cases w.Open (w.Clean r) with
      | error err => rfl
      | ok f => rfl
  · intro w
    have hsplit : SplitAfterN (str "env://a://b") (str "://") 2 = [str "env://", str "a://b"] := by
      decide
    constructor
    · rw [LoadFileOrURL_of_split w _ _ _ hsplit, if_neg (by decide), if_pos rfl]
      cases w.LookupEnv (str "a://b") <;> rfl
    · rw [LoadFileOrURLUsingReader_of_split w _ _ _ hsplit, if_neg (by decide), if_pos rfl]
      cases w.LookupEnv (str "a://b") <;> rfl

theorem scheme_split_first_witness :
    (∃ t b, SplitAfterN (str "x://y://z") (str "://") 2 = [t, b] ∧ t ++ b = str "x://y://z" ∧
        str "://" <:+ t ∧ ¬ str "://" <:+: t.dropLast ∧
        ∀ t2, t2 <+: str "x://y://z" → str "://" <:+ t2 → t.length ≤ t2.length) ∧
      (SplitAfterN (str "hello.txt") (str "://") 2 = [str "hello.txt"] ∧
        ∀ w : World, (LoadFileOrURL w (str "hello.txt")).calls =
            [.ReadFile (w.Clean (str "hello.txt"))] ∧
          (LoadFileOrURLUsingReader w (str "hello.txt")).calls =
            [.Open (w.Clean (str "hello.txt"))]) :=
  ⟨(scheme_split_first (str "x://y://z")).1 (by decide),
    (scheme_split_first (str "hello.txt")).2.1 (by decide)⟩

/-- C10 (environment indirection). For every name `N` and every world, if `N` is set to
`V` then `LoadFileOrURL` on `env://N` returns exactly `V` and no error, and if `N` is not
set it returns no bytes and the error `loading URL: env var $N not found`; in both cases
its one backend call is the lookup of `N`. -/
theorem LoadFileOrURL_env (w : World) (N : Bytes) :
    (∀ V, w.LookupEnv N = some V →
      LoadFileOrURL w (str "env://" ++ N) = .ret [.LookupEnv N] (some V) none) ∧
    (w.LookupEnv N = none →
      LoadFileOrURL w (str "env://" ++ N) =
        .ret [.LookupEnv N] none
          (some (.errorString (str "loading URL: env var $" ++ N ++ str " not found")))) := by
  obtain ⟨b, hb, hsplit⟩ := SplitAfterN_of_first (str "env://" ++ N) (str "env://") (str "://")
    (by decide) ⟨N, rfl⟩ (by decide) (by decide)
  have hbN : b = N := (List.append_cancel_left hb).symm
  subst hbN
  have hdispatch := LoadFileOrURL_of_split w _ _ _ hsplit
  rw [if_neg (by decide), if_pos rfl] at hdispatch
  constructor
  · intro V hV
    rw [hdispatch, hV]
  · intro hN
    rw [hdispatch, hN, Errorf_env_not_found]

theorem LoadFileOrURL_env_witness :
    LoadFileOrURL exampleWorld (str "env://" ++ str "COSIGN_KEY") =
        .ret [.LookupEnv (str "COSIGN_KEY")] (some (str "secret")) none ∧
      LoadFileOrURL exampleWorld (str "env://" ++ str "a://b") =
        .ret [.LookupEnv (str "a://b")] none
          (some (.errorString
            (str "loading URL: env var $" ++ str "a://b" ++ str " not found"))) :=
  ⟨(LoadFileOrURL_env exampleWorld (str "COSIGN_KEY")).1 (str "secret") (by decide),
    (LoadFileOrURL_env exampleWorld (str "a://b")).2 (by decide)⟩

/-! ## Bare paths and HTTP references -/

/-- C11 (bare paths go to the filesystem). For every world and every reference without
`://`, the one backend call of `LoadFileOrURL` is `os.ReadFile` on `Clean` of the whole
reference: if that read gives bytes and no error, exactly those bytes are returned, and if it
gives an error, that error is returned unchanged with no bytes. Two such references with the
same cleaned form give the same outcome; with the `Clean` of a `/` platform, `a/./b/../c` and
`a/c` are such a pair. -/
theorem LoadFileOrURL_bare_path (w : World) (r : Bytes) (h : ¬ str "://" <:+: r) :
    (∀ raw, osReadFile w (w.Clean r) = (raw, none) →
      LoadFileOrURL w r = .ret [.ReadFile (w.Clean r)] raw none) ∧
    (∀ raw err, osReadFile w (w.Clean r) = (raw, some err) →
      LoadFileOrURL w r = .ret [.ReadFile (w.Clean r)] none (some err)) ∧
    (∀ r2, ¬ str "://" <:+: r2 → w.Clean r2 = w.Clean r →
      LoadFileOrURL w r2 = LoadFileOrURL w r) ∧
    (w.Clean = unixClean →
      LoadFileOrURL w (str "a/./b/../c") = LoadFileOrURL w (str "a/c")) := by
  have key : ∀ r0, ¬ str "://" <:+: r0 →
      LoadFileOrURL w r0 =
        match osReadFile w (w.Clean r0) with
        | (_, some err) => .ret [.ReadFile (w.Clean r0)] none (some err)
        | (raw, none) => .ret [.ReadFile (w.Clean r0)] raw none :=
    fun r0 h0 => LoadFileOrURL_of_single w r0 (SplitAfterN_two_of_absent r0 (str "://") h0)
  refine ⟨?_, ?_, ?_, ?_⟩
  · intro raw hraw
    rw [key r h, hraw]
  · intro raw err hraw
    rw [key r h, hraw]
  · intro r2 h2 hclean
    rw [key r h, key r2 h2, hclean]
  · intro hclean
    rw [key _ (by decide), key _ (by decide), hclean]
    have : unixClean (str "a/./b/../c") = unixClean (str "a/c") := by decide
    rw [this]

theorem LoadFileOrURL_bare_path_witness :
    LoadFileOrURL unixWorld (str "a/./b/../c") =
        .ret [.ReadFile (str "a/c")] (some (str "hello")) none ∧
      LoadFileOrURL unixWorld (str "a/./b/../missing") =
        .ret [.ReadFile (str "a/missing")] none
          (some (.external (str "open: no such file or directory"))) ∧
      LoadFileOrURL unixWorld (str "./a/c") = LoadFileOrURL unixWorld (str "a/./b/../c") ∧
      LoadFileOrURL unixWorld (str "a/./b/../c") = LoadFileOrURL unixWorld (str "a/c") :=
  ⟨(LoadFileOrURL_bare_path unixWorld (str "a/./b/../c") (by decide)).1
      (some (str "hello")) (by decide),
    (LoadFileOrURL_bare_path unixWorld (str "a/./b/../missing") (by decide)).2.1 none
      (.external (str "open: no such file or directory")) (by decide),
    (LoadFileOrURL_bare_path unixWorld (str "a/./b/../c") (by decide)).2.2.1
      (str "./a/c") (by decide) (by decide),
    (LoadFileOrURL_bare_path unixWorld (str "a/./b/../c") (by decide)).2.2.2 rfl⟩

theorem LoadFileOrURL_of_http (w : World) (r : Bytes)
    (h : str "http://" <+: r ∨ str "https://" <+: r) :
    LoadFileOrURL w r =
      match w.Get r with
      | .error err => .ret [.Get r] none (some err)
      | .ok resp =>
        match ioReadAll resp.Body with
        | (_, some err) => .ret [.Get r] none (some err)
        | (raw, none) => .ret [.Get r] raw none := by
  rcases h with h | h
  · obtain ⟨b, _, hsplit⟩ := SplitAfterN_of_first r (str "http://") (str "://") (by decide) h
      (by decide) (by decide)
    rw [LoadFileOrURL_of_split w r _ b hsplit, if_pos (Or.inl rfl)]
  · obtain ⟨b, _, hsplit⟩ := SplitAfterN_of_first r (str "https://") (str "://") (by decide) h
      (by decide) (by decide)
    rw [LoadFileOrURL_of_split w r _ b hsplit, if_pos (Or.inr rfl)]

/-- C12 (HTTP(S) references are fetched verbatim). For every world and every reference
that begins with `http://` or `https://`, the backend calls of `LoadFileOrURL` are exactly
one `http.Get`, of the reference itself. A transport error is returned unchanged with no
bytes, an error in reading the body is returned unchanged with no bytes, and otherwise the
whole body is returned with no error. -/
theorem LoadFileOrURL_http (w : World) (r : Bytes)
    (h : str "http://" <+: r ∨ str "https://" <+: r) :
    (LoadFileOrURL w r).calls = [.Get r] ∧
    (∀ err, w.Get r = .error err → LoadFileOrURL w r = .ret [.Get r] none (some err)) ∧
    (∀ resp err, w.Get r = .ok resp → resp.Body.err = some err →
      LoadFileOrURL w r = .ret [.Get r] none (some err)) ∧
    (∀ resp, w.Get r = .ok resp → resp.Body.err = none →
      LoadFileOrURL w r = .ret [.Get r] (some resp.Body.data) none) := by
  have key := LoadFileOrURL_of_http w r h
  refine ⟨?_, ?_, ?_, ?_⟩
  · rw [key]
    cases w.Get r with
    | error err => rfl
    | ok resp =>
      simp only [ioReadAll]
      cases resp.Body.err <;> rfl
  · intro err hget
    rw [key, hget]
  · intro resp err hget hbody
    rw [key, hget]
    simp [ioReadAll, hbody]
  · intro resp hget hbody
    rw [key, hget]
    simp [ioReadAll, hbody]

theorem LoadFileOrURL_http_witness :
    (LoadFileOrURL exampleWorld (str "https://example.com/missing")).calls =
        [.Get (str "https://example.com/missing")] ∧
      LoadFileOrURL exampleWorld (str "http://example.com/a/../b") =
        .ret [.Get (str "http://example.com/a/../b")] none
          (some (.external (str "dial tcp: connection refused"))) ∧
      LoadFileOrURL exampleWorld (str "https://example.com/missing") =
        .ret [.Get (str "https://example.com/missing")] (some (str "404 page not found")) none :=
  ⟨(LoadFileOrURL_http exampleWorld (str "https://example.com/missing")
      (Or.inr (by decide))).1,
    (LoadFileOrURL_http exampleWorld (str "http://example.com/a/../b")
      (Or.inl (by decide))).2.1 _ rfl,
    (LoadFileOrURL_http exampleWorld (str "https://example.com/missing")
      (Or.inr (by decide))).2.2.2 ⟨404, ⟨str "404 page not found", none⟩⟩ rfl rfl⟩

/-! ## The two modes -/

theorem LoadFileOrURLUsingReader_of_http (w : World) (r : Bytes)
    (h : str "http://" <+: r ∨ str "https://" <+: r) :
    LoadFileOrURLUsingReader w r =
      match w.Get r with
      | .error err => .ret [.Get r] none (some err)
      | .ok resp => .ret [.Get r] (some resp.Body) none := by
  rcases h with h | h
  · obtain ⟨b, _, hsplit⟩ := SplitAfterN_of_first r (str "http://") (str "://") (by decide) h
      (by decide) (by decide)
    exact (LoadFileOrURLUsingReader_of_split w r _ b hsplit).trans (if_pos (Or.inl rfl))
  · obtain ⟨b, _, hsplit⟩ := SplitAfterN_of_first r (str "https://") (str "://") (by decide) h
      (by decide) (by decide)
    exact (LoadFileOrURLUsingReader_of_split w r _ b hsplit).trans (if_pos (Or.inr rfl))

theorem SplitAfterN_env (N : Bytes) :
    SplitAfterN (str "env://" ++ N) (str "://") 2 = [str "env://", N] := by
  obtain ⟨b, hb, hsplit⟩ := SplitAfterN_of_first (str "env://" ++ N) (str "env://") (str "://")
    (by decide) ⟨N, rfl⟩ (by decide) (by decide)
  have hbN : b = N := (List.append_cancel_left hb).symm
  rw [hsplit, hbN]

/-- For every reference, either both modes fail with the same error, or the streaming
mode returns a reader and the materializing mode returns what reading it to the end gives:
its bytes, or the error that ends the reading. The calls go to the same backend with the
same argument. -/
theorem modes_cases (w : World) (r : Bytes) :
    (∃ e calls calls2, LoadFileOrURL w r = .ret calls none (some e) ∧
      LoadFileOrURLUsingReader w r = .ret calls2 none (some e) ∧
      calls2.map Call.target = calls.map Call.target) ∨
    (∃ rd calls calls2, LoadFileOrURLUsingReader w r = .ret calls2 (some rd) none ∧
      calls2.map Call.target = calls.map Call.target ∧
      ((rd.err = none ∧ LoadFileOrURL w r = .ret calls (some rd.data) none) ∨
        ∃ e, rd.err = some e ∧ LoadFileOrURL w r = .ret calls none (some e))) := by
  rcases SplitAfterN_two_cases r (str "://") (by decide) with h | ⟨t, b, h⟩
  · rw [LoadFileOrURL_of_single w r h, LoadFileOrURLUsingReader_of_single w r h]
    simp only [osReadFile, ioReadAll]
    cases w.Open (w.Clean r) with
    | error err =>
      exact Or.inl ⟨err, [.ReadFile (w.Clean r)], [.Open (w.Clean r)], rfl, rfl, rfl⟩
    | ok f =>
      obtain ⟨data, ferr⟩ := f
      cases ferr with
      | none =>
        exact Or.inr ⟨⟨data, none⟩, [.ReadFile (w.Clean r)], [.Open (w.Clean r)], rfl, rfl,
          Or.inl ⟨rfl, rfl⟩⟩
      | some e0 =>
        exact Or.inr ⟨⟨data, some e0⟩, [.ReadFile (w.Clean r)], [.Open (w.Clean r)], rfl, rfl,
          Or.inr ⟨e0, rfl, rfl⟩⟩
  · rw [LoadFileOrURL_of_split w r t b h, LoadFileOrURLUsingReader_of_split w r t b h]
    split_ifs
    · simp only [ioReadAll]
      cases w.Get r with
      | error err => exact Or.inl ⟨err, [.Get r], [.Get r], rfl, rfl, rfl⟩
      | ok resp =>
        obtain ⟨status, ⟨data, ferr⟩⟩ := resp
        cases ferr with
        | none =>
          exact Or.inr ⟨⟨data, none⟩, [.Get r], [.Get r], rfl, rfl, Or.inl ⟨rfl, rfl⟩⟩
        | some e0 =>
          exact Or.inr ⟨⟨data, some e0⟩, [.Get r], [.Get r], rfl, rfl, Or.inr ⟨e0, rfl, rfl⟩⟩
    · cases w.LookupEnv b with
      | none => exact Or.inl ⟨_, [.LookupEnv b], [.LookupEnv b], rfl, rfl, rfl⟩
      | some value =>
        exact Or.inr ⟨stringsNewReader value, [.LookupEnv b], [.LookupEnv b], rfl, rfl,
          Or.inl ⟨rfl, rfl⟩⟩
    · exact Or.inl ⟨_, [], [], rfl, rfl, rfl⟩

/-- C13 (the streaming and the materializing mode agree). For every world and every
reference: `LoadFileOrURLUsingReader` goes to the same backend with the same argument as
`LoadFileOrURL`. For an unrecognized scheme both return the same `UnrecognizedSchemeError`
and make no call. For `env://N` with `N` unset both return the same not-found error, and
with `N` set to `V` the streaming mode returns a reader of `V` and the other mode `V`. For
`http://` and `https://` a failed GET gives both the same error, and otherwise the streaming
mode returns the body of the response. Without `://` a failed open of the cleaned path
gives both the same error, and otherwise the streaming mode returns the open file. In
general, whenever the streaming mode fails it returns no reader and `LoadFileOrURL` fails
with the same error; when it does not fail it returns a reader; if that reader reads to the
end without error, `LoadFileOrURL` returns exactly the bytes read, and if the reading ends in
an error, `LoadFileOrURL` returns that error; and whenever `LoadFileOrURL` returns bytes,
the streaming mode returns a reader that reads to the end as exactly those bytes. -/
theorem LoadFileOrURLUsingReader_agrees (w : World) (r : Bytes) :
    (LoadFileOrURLUsingReader w r).calls.map Call.target =
        (LoadFileOrURL w r).calls.map Call.target ∧
    (∀ t, t <+: r → str "://" <:+ t → ¬ str "://" <:+: t.dropLast →
      t ≠ str "http://" → t ≠ str "https://" → t ≠ str "env://" →
      LoadFileOrURLUsingReader w r = .ret [] none (some (.UnrecognizedSchemeError t)) ∧
        LoadFileOrURL w r = .ret [] none (some (.UnrecognizedSchemeError t))) ∧
    (∀ N, r = str "env://" ++ N →
      (w.LookupEnv N = none →
        LoadFileOrURLUsingReader w r =
            .ret [.LookupEnv N] none
              (some (.errorString (str "loading URL: env var $" ++ N ++ str " not found"))) ∧
          LoadFileOrURL w r =
            .ret [.LookupEnv N] none
              (some (.errorString (str "loading URL: env var $" ++ N ++ str " not found")))) ∧
      (∀ V, w.LookupEnv N = some V →
        LoadFileOrURLUsingReader w r = .ret [.LookupEnv N] (some (stringsNewReader V)) none ∧
          LoadFileOrURL w r = .ret [.LookupEnv N] (some V) none)) ∧
    (str "http://" <+: r ∨ str "https://" <+: r →
      (∀ err, w.Get r = .error err →
        LoadFileOrURLUsingReader w r = .ret [.Get r] none (some err) ∧
          LoadFileOrURL w r = .ret [.Get r] none (some err)) ∧
      (∀ resp, w.Get r = .ok resp →
        LoadFileOrURLUsingReader w r = .ret [.Get r] (some resp.Body) none)) ∧
    (¬ str "://" <:+: r →
      (∀ err, w.Open (w.Clean r) = .error err →
        LoadFileOrURLUsingReader w r = .ret [.Open (w.Clean r)] none (some err) ∧
          LoadFileOrURL w r = .ret [.ReadFile (w.Clean r)] none (some err)) ∧
      (∀ f, w.Open (w.Clean r) = .ok f →
        LoadFileOrURLUsingReader w r = .ret [.Open (w.Clean r)] (some f) none)) ∧
    (∀ calls v e, LoadFileOrURLUsingReader w r = .ret calls v (some e) →
      v = none ∧ ∃ calls2, LoadFileOrURL w r = .ret calls2 none (some e)) ∧
    (∀ calls v, LoadFileOrURLUsingReader w r = .ret calls v none → ∃ rd, v = some rd) ∧
    (∀ calls rd, LoadFileOrURLUsingReader w r = .ret calls (some rd) none →
      (∀ bytes, ioReadAll rd = (some bytes, none) →
        ∃ calls2, LoadFileOrURL w r = .ret calls2 (some bytes) none) ∧
      (∀ data e, ioReadAll rd = (data, some e) →
        ∃ calls2, LoadFileOrURL w r = .ret calls2 none (some e))) ∧
    (∀ calls bytes, LoadFileOrURL w r = .ret calls (some bytes) none →
      ∃ calls2 rd, LoadFileOrURLUsingReader w r = .ret calls2 (some rd) none ∧
        ioReadAll rd = (some bytes, none)) := by
  refine ⟨?_, ?_, ?_, ?_, ?_, ?_, ?_, ?_, ?_⟩
  · rcases modes_cases w r with ⟨e, calls, calls2, h1, h2, ht⟩ | ⟨rd, calls, calls2, h2, ht, h1⟩
    · rw [h1, h2]; exact ht
    · rcases h1 with ⟨_, h1⟩ | ⟨e, _, h1⟩ <;> (rw [h1, h2]; exact ht)
  · intro t hpre hsuf hfirst hhttp hhttps henv
    obtain ⟨b, _, hsplit⟩ := SplitAfterN_of_first r t (str "://") (by decide) hpre hsuf hfirst
    constructor
    · rw [LoadFileOrURLUsingReader_of_split w r t b hsplit, if_neg (by simp [hhttp, hhttps]),
        if_neg henv]
    · rw [LoadFileOrURL_of_split w r t b hsplit, if_neg (by simp [hhttp, hhttps]),
        if_neg henv]
  · intro N hr
    subst hr
    have h1 := LoadFileOrURL_of_split w _ _ _ (SplitAfterN_env N)
    have h2 := LoadFileOrURLUsingReader_of_split w _ _ _ (SplitAfterN_env N)
    rw [if_neg (by decide), if_pos rfl] at h1 h2
    constructor
    · intro hN
      rw [h1, h2, hN, Errorf_env_not_found]
      exact ⟨rfl, rfl⟩
    · intro V hV
      rw [h1, h2, hV]
      exact ⟨rfl, rfl⟩
  · intro h
    have h1 := LoadFileOrURL_of_http w r h
    have h2 := LoadFileOrURLUsingReader_of_http w r h
    constructor
    · intro err hget
      rw [h1, h2, hget]
      exact ⟨rfl, rfl⟩
    · intro resp hget
      rw [h2, hget]
  · intro h
    have hsplit := SplitAfterN_two_of_absent r (str "://") h
    have h1 := LoadFileOrURL_of_single w r hsplit
    have h2 := LoadFileOrURLUsingReader_of_single w r hsplit
    constructor
    · intro err hopen
      rw [h1, h2]
      simp [osReadFile, hopen]
    · intro f hopen
      rw [h2, hopen]
  · intro calls v e he
    rcases modes_cases w r with ⟨e2, c1, c2, h1, h2, _⟩ | ⟨rd, c1, c2, h2, _, _⟩
    · rw [h2] at he
      simp only [Outcome.ret.injEq, Option.some.injEq] at he
      obtain ⟨_, hv, he⟩ := he
      exact ⟨hv.symm, c1, by rw [h1, he]⟩
    · rw [h2] at he
      simp at he
  · intro calls v hv
    rcases modes_cases w r with ⟨e2, c1, c2, _, h2, _⟩ | ⟨rd, c1, c2, h2, _, _⟩
    · rw [h2] at hv
      simp at hv
    · rw [h2] at hv
      simp only [Outcome.ret.injEq, and_true] at hv
      exact ⟨rd, hv.2.symm⟩
  · intro calls rd0 hrd
    rcases modes_cases w r with ⟨e2, c1, c2, _, h2, _⟩ | ⟨rd, c1, c2, h2, _, h1⟩
    · rw [h2] at hrd
      simp at hrd
    · rw [h2] at hrd
      simp only [Outcome.ret.injEq, Option.some.injEq, and_true] at hrd
      obtain ⟨_, hrd⟩ := hrd
      subst hrd
      constructor
      · intro bytes hread
        simp only [ioReadAll, Prod.mk.injEq, Option.some.injEq] at hread
        rcases h1 with ⟨_, h1⟩ | ⟨e, herr, _⟩
        · exact ⟨c1, by rw [h1, hread.1]⟩
        · rw [herr] at hread
          simp at hread
      · intro data e hread
        simp only [ioReadAll, Prod.mk.injEq] at hread
        rcases h1 with ⟨herr, _⟩ | ⟨e2, herr, h1⟩
        · rw [herr] at hread
          simp at hread
        · rw [herr] at hread
          exact ⟨c1, by rw [h1, Option.some.inj hread.2]⟩
  · intro calls bytes hb
    rcases modes_cases w r with ⟨e2, c1, c2, h1, _, _⟩ | ⟨rd, c1, c2, h2, _, h1⟩
    · rw [h1] at hb
      simp at hb
    · rcases h1 with ⟨herr, h1⟩ | ⟨e, _, h1⟩
      · rw [h1] at hb
        simp only [Outcome.ret.injEq, Option.some.injEq, and_true] at hb
        exact ⟨c2, rd, h2, by simp [ioReadAll, herr, hb.2]⟩
      · rw [h1] at hb
        simp at hb

theorem LoadFileOrURLUsingReader_agrees_witness :
    (LoadFileOrURLUsingReader exampleWorld (str "env://" ++ str "UNSET") =
        .ret [.LookupEnv (str "UNSET")] none
          (some (.errorString
            (str "loading URL: env var $" ++ str "UNSET" ++ str " not found"))) ∧
      LoadFileOrURL exampleWorld (str "env://" ++ str "UNSET") =
        .ret [.LookupEnv (str "UNSET")] none
          (some (.errorString
            (str "loading URL: env var $" ++ str "UNSET" ++ str " not found")))) ∧
    (LoadFileOrURLUsingReader exampleWorld (str "env://" ++ str "COSIGN_KEY") =
        .ret [.LookupEnv (str "COSIGN_KEY")] (some (stringsNewReader (str "secret"))) none ∧
      LoadFileOrURL exampleWorld (str "env://" ++ str "COSIGN_KEY") =
        .ret [.LookupEnv (str "COSIGN_KEY")] (some (str "secret")) none) ∧
    (LoadFileOrURLUsingReader exampleWorld (str "http://example.com/key") =
        .ret [.Get (str "http://example.com/key")] none
          (some (.external (str "dial tcp: connection refused"))) ∧
      LoadFileOrURL exampleWorld (str "http://example.com/key") =
        .ret [.Get (str "http://example.com/key")] none
          (some (.external (str "dial tcp: connection refused")))) ∧
    LoadFileOrURLUsingReader exampleWorld (str "https://example.com/missing") =
      .ret [.Get (str "https://example.com/missing")]
        (some ⟨str "404 page not found", none⟩) none ∧
    (LoadFileOrURLUsingReader exampleWorld (str "missing.txt") =
        .ret [.Open (str "missing.txt")] none
          (some (.external (str "open: no such file or directory"))) ∧
      LoadFileOrURL exampleWorld (str "missing.txt") =
        .ret [.ReadFile (str "missing.txt")] none
          (some (.external (str "open: no such file or directory")))) ∧
    (∃ calls2, LoadFileOrURL exampleWorld (str "hello.txt") =
      .ret calls2 (some (str "hello")) none) :=
  ⟨((LoadFileOrURLUsingReader_agrees exampleWorld (str "env://" ++ str "UNSET")).2.2.1
      (str "UNSET") rfl).1 (by decide),
    ((LoadFileOrURLUsingReader_agrees exampleWorld (str "env://" ++ str "COSIGN_KEY")).2.2.1
      (str "COSIGN_KEY") rfl).2 (str "secret") (by decide),
    ((LoadFileOrURLUsingReader_agrees exampleWorld (str "http://example.com/key")).2.2.2.1
      (Or.inl (by decide))).1 (.external (str "dial tcp: connection refused")) rfl,
    ((LoadFileOrURLUsingReader_agrees exampleWorld
      (str "https://example.com/missing")).2.2.2.1
      (Or.inr (by decide))).2 ⟨404, ⟨str "404 page not found", none⟩⟩ rfl,
    ((LoadFileOrURLUsingReader_agrees exampleWorld (str "missing.txt")).2.2.2.2.1
      (by decide)).1 (.external (str "open: no such file or directory")) rfl,
    ((LoadFileOrURLUsingReader_agrees exampleWorld (str "hello.txt")).2.2.2.2.2.2.2.1
      [.Open (str "hello.txt")] ⟨str "hello", none⟩ (by decide)).1 (str "hello") (by decide)⟩

/-! ## The kinds of failure -/

theorem append_ne_of_take_ne (n : Nat) (p q x y : Bytes) (hp : n ≤ p.length)
    (hq : n ≤ q.length) (h : p.take n ≠ q.take n) : p ++ x ≠ q ++ y := by
  intro heq
  apply h
  have := congrArg (List.take n) heq
  rwa [List.take_append_of_le_length hp, List.take_append_of_le_length hq] at this

/-- C14 (the kinds of failure are distinguishable). For every scheme token, variable
name, checksum string, algorithm name, reference and pair of digests, the messages of the
five errors the resolver makes itself (unrecognized scheme, environment variable not found,
malformed checksum, unsupported algorithm, checksum mismatch) are pairwise different, so no
two of these errors are equal. -/
theorem error_kinds_distinct (scheme envVar checksum algo fileRef expected computed : Bytes) :
    (Error.UnrecognizedSchemeError scheme).Error ≠
        (Errorf (str "loading URL: env var $%s not found") [envVar]).Error ∧
    (Error.UnrecognizedSchemeError scheme).Error ≠
        (Errorf (str "wrong checksum input format, must have at most 1 colon: %s")
          [checksum]).Error ∧
    (Error.UnrecognizedSchemeError scheme).Error ≠
        (Errorf (str "unsupported checksum algorithm: %s") [algo]).Error ∧
    (Error.UnrecognizedSchemeError scheme).Error ≠
        (Errorf (str "incorrect checksum for file %s: expected %s but got %s")
          [fileRef, expected, computed]).Error ∧
    (Errorf (str "loading URL: env var $%s not found") [envVar]).Error ≠
        (Errorf (str "wrong checksum input format, must have at most 1 colon: %s")
          [checksum]).Error ∧
    (Errorf (str "loading URL: env var $%s not found") [envVar]).Error ≠
        (Errorf (str "unsupported checksum algorithm: %s") [algo]).Error ∧
    (Errorf (str "loading URL: env var $%s not found") [envVar]).Error ≠
        (Errorf (str "incorrect checksum for file %s: expected %s but got %s")
          [fileRef, expected, computed]).Error ∧
    (Errorf (str "wrong checksum input format, must have at most 1 colon: %s")
          [checksum]).Error ≠
        (Errorf (str "unsupported checksum algorithm: %s") [algo]).Error ∧
    (Errorf (str "wrong checksum input format, must have at most 1 colon: %s")
          [checksum]).Error ≠
        (Errorf (str "incorrect checksum for file %s: expected %s but got %s")
          [fileRef, expected, computed]).Error ∧
    (Errorf (str "unsupported checksum algorithm: %s") [algo]).Error ≠
        (Errorf (str "incorrect checksum for file %s: expected %s but got %s")
          [fileRef, expected, computed]).Error := by
  rw [Error_UnrecognizedSchemeError, Errorf_env_not_found, Errorf_wrong_format,
    Errorf_unsupported, Errorf_incorrect]
  simp only [Error.Error, List.append_assoc]
  refine ⟨?_, ?_, ?_, ?_, ?_, ?_, ?_, ?_, ?_, ?_⟩ <;>
    exact append_ne_of_take_ne 14 _ _ _ _ (by decide) (by decide) (by decide)

/-! ## The end-to-end scenario -/

set_option maxRecDepth 100000 in
theorem sha256Sum_hello :
    hexEncodeToString (sha256Sum (str "hello")) =
      str "2cf24dba5fb0a30e26e83b2ac5b9e29e1b161e5c1fa7425e73043362938b9824" := by
  decide

/-- C15, as stated, fails: in a world whose file `hello.txt` holds the five bytes `hello`,
`LoadFileOrURLWithChecksum` with the checksum
`sha256:2cf24dba5fb0a30e26e83b2ac5b9e29e1b161e5c1fa7425e73043362938b9824` returns the content
and no error; it does not return an error. -/
theorem placeholder_digest_verifies :
    LoadFileOrURLWithChecksum exampleWorld (str "hello.txt")
        (str "sha256:2cf24dba5fb0a30e26e83b2ac5b9e29e1b161e5c1fa7425e73043362938b9824") =
      .ret [.ReadFile (str "hello.txt")] (some (str "hello")) none ∧
    ¬ ∃ calls val e,
      LoadFileOrURLWithChecksum exampleWorld (str "hello.txt")
          (str "sha256:2cf24dba5fb0a30e26e83b2ac5b9e29e1b161e5c1fa7425e73043362938b9824") =
        .ret calls val (some e) := by
  have h : LoadFileOrURLWithChecksum exampleWorld (str "hello.txt")
      (str "sha256:2cf24dba5fb0a30e26e83b2ac5b9e29e1b161e5c1fa7425e73043362938b9824") =
      .ret [.ReadFile (str "hello.txt")] (some (str "hello")) none := by decide
  refine ⟨h, ?_⟩
  rintro ⟨calls, val, e, he⟩
  rw [h] at he
  simp at he

/-- C15 (amended). In every world, for every path without `://` such that reading the file
at its cleaned form gives the five bytes `hello` and no error, `LoadFileOrURLWithChecksum`
with the checksum
`sha256:2cf24dba5fb0a30e26e83b2ac5b9e29e1b161e5c1fa7425e73043362938b9824` succeeds: it
returns `hello` and no error, that checksum being the SHA-256 digest of `hello`. -/
theorem hello_scenario (w : World) (p : Bytes) (hp : ¬ str "://" <:+: p)
    (hfile : osReadFile w (w.Clean p) = (some (str "hello"), none)) :
    LoadFileOrURLWithChecksum w p
        (str "sha256:2cf24dba5fb0a30e26e83b2ac5b9e29e1b161e5c1fa7425e73043362938b9824") =
      .ret [.ReadFile (w.Clean p)] (some (str "hello")) none := by
  have hload : LoadFileOrURL w p = .ret [.ReadFile (w.Clean p)] (some (str "hello")) none := by
    rw [LoadFileOrURL_of_single w p (SplitAfterN_two_of_absent p (str "://") hp), hfile]
  have hcs : str "sha256:2cf24dba5fb0a30e26e83b2ac5b9e29e1b161e5c1fa7425e73043362938b9824" =
      str "sha256:" ++ hexEncodeToString (sha256Sum (str "hello")) := by
    rw [sha256Sum_hello]
    decide
  rw [hcs, LoadFileOrURLWithChecksum_of_sha256 w p _ (colon_not_mem_hexEncodeToString _),
    ← Sum_sha256New]
  exact verify_match w p sha256New _ (str "hello") hload

theorem hello_scenario_witness :
    LoadFileOrURLWithChecksum unixWorld (str "a/./b/../c")
        (str "sha256:2cf24dba5fb0a30e26e83b2ac5b9e29e1b161e5c1fa7425e73043362938b9824") =
      .ret [.ReadFile (unixWorld.Clean (str "a/./b/../c"))] (some (str "hello")) none :=
  hello_scenario unixWorld (str "a/./b/../c") (by decide) (by decide)

/-! ## Determinism -/

theorem verify_calls (w : World) (fileRef d : Bytes) (algo : Hash) :
    (LoadFileOrURLWithChecksum.verify w fileRef d algo).calls = (LoadFileOrURL w fileRef).calls := by
  unfold LoadFileOrURLWithChecksum.verify
  cases h : LoadFileOrURL w fileRef with
  | panic calls => rfl
  | ret calls v e =>
    cases e with
    | some err => rfl
    | none =>
      simp only
      split_ifs <;> rfl

theorem LoadFileOrURLWithChecksum_calls (w : World) (fileRef checksum : Bytes) :
    (LoadFileOrURLWithChecksum w fileRef checksum).calls = [] ∨
      (LoadFileOrURLWithChecksum w fileRef checksum).calls = (LoadFileOrURL w fileRef).calls := by
  rcases colon_cases checksum with h0 | ⟨a, d, hs, ha, hd⟩ | h2
  · rw [LoadFileOrURLWithChecksum_of_bare w fileRef checksum h0]
    exact Or.inr (verify_calls w fileRef checksum _)
  · subst hs
    rw [LoadFileOrURLWithChecksum_of_algo w fileRef a d ha hd]
    split_ifs
    · exact Or.inr (verify_calls w fileRef d _)
    · exact Or.inr (verify_calls w fileRef d _)
    · exact Or.inl rfl
  · rw [LoadFileOrURLWithChecksum_of_many w fileRef checksum h2]
    exact Or.inl rfl

theorem LoadFileOrURL_calls (w : World) (r : Bytes) :
    (LoadFileOrURL w r).calls = [] ∨ (LoadFileOrURL w r).calls = [.ReadFile (w.Clean r)] ∨
      (LoadFileOrURL w r).calls = [.Get r] ∨
      ∃ key, (LoadFileOrURL w r).calls = [.LookupEnv key] := by
  rcases SplitAfterN_two_cases r (str "://") (by decide) with h | ⟨t, b, h⟩
  · rw [LoadFileOrURL_of_single w r h]
    simp only [osReadFile, ioReadAll]
    cases w.Open (w.Clean r) with
    | error err => exact Or.inr (Or.inl rfl)
    | ok f =>
      obtain ⟨data, ferr⟩ := f
      cases ferr <;> exact Or.inr (Or.inl rfl)
  · rw [LoadFileOrURL_of_split w r t b h]
    split_ifs
    · simp only [ioReadAll]
      cases w.Get r with
      | error err => exact Or.inr (Or.inr (Or.inl rfl))
      | ok resp =>
        obtain ⟨status, ⟨data, ferr⟩⟩ := resp
        cases ferr <;> exact Or.inr (Or.inr (Or.inl rfl))
    · cases w.LookupEnv b <;> exact Or.inr (Or.inr (Or.inr ⟨b, rfl⟩))
    · exact Or.inl rfl

theorem after_Setenv (w : World) (key value : Bytes) :
    (World.after w [.Setenv key value]).LookupEnv key = some value := by
  simp [World.after, Call.apply]

theorem after_WriteFile (w : World) (name data : Bytes) :
    (World.after w [.WriteFile name data]).Open name = .ok ⟨data, none⟩ := by
  simp [World.after, Call.apply]

theorem after_LoadFileOrURL (w : World) (r : Bytes) :
    World.after w (LoadFileOrURL w r).calls = w := by
  rcases LoadFileOrURL_calls w r with h | h | h | ⟨key, h⟩ <;> rw [h] <;> rfl

theorem after_LoadFileOrURLWithChecksum (w : World) (r checksum : Bytes) :
    World.after w (LoadFileOrURLWithChecksum w r checksum).calls = w := by
  rcases LoadFileOrURLWithChecksum_calls w r checksum with h | h
  · rw [h]; rfl
  · rw [h]; exact after_LoadFileOrURL w r

/-- C16 (determinism and statelessness). The outcome of `LoadFileOrURL` and of
`LoadFileOrURLWithChecksum` is a function of the reference, the checksum and what the
backends answer: in two worlds that give the same cleaned path, the same answer on opening
it, the same answer to a GET of the reference and the same environment, both operations give
the same outcome, byte for byte. Of the calls that read or write the filesystem, the network
and the environment, `LoadFileOrURL` makes none or exactly one, and that one is a read (a
file read of the cleaned path, a GET of the reference, or an environment lookup);
`LoadFileOrURLWithChecksum` makes none or the same ones. So the world after a call of either
operation is the world before it, and a second call with the same arguments, made in the
world the first one left, gives the same outcome as the first. -/
theorem LoadFileOrURL_deterministic (w1 w2 : World) (fileRef : Bytes)
    (hclean : w1.Clean fileRef = w2.Clean fileRef)
    (hopen : w1.Open (w1.Clean fileRef) = w2.Open (w2.Clean fileRef))
    (hget : w1.Get fileRef = w2.Get fileRef)
    (henv : ∀ key, w1.LookupEnv key = w2.LookupEnv key) :
    LoadFileOrURL w1 fileRef = LoadFileOrURL w2 fileRef ∧
    (∀ checksum,
      LoadFileOrURLWithChecksum w1 fileRef checksum =
        LoadFileOrURLWithChecksum w2 fileRef checksum) ∧
    ((LoadFileOrURL w1 fileRef).calls = [] ∨
      (LoadFileOrURL w1 fileRef).calls = [.ReadFile (w1.Clean fileRef)] ∨
      (LoadFileOrURL w1 fileRef).calls = [.Get fileRef] ∨
      ∃ key, (LoadFileOrURL w1 fileRef).calls = [.LookupEnv key]) ∧
    (∀ checksum,
      (LoadFileOrURLWithChecksum w1 fileRef checksum).calls = [] ∨
        (LoadFileOrURLWithChecksum w1 fileRef checksum).calls =
          (LoadFileOrURL w1 fileRef).calls) ∧
    World.after w1 (LoadFileOrURL w1 fileRef).calls = w1 ∧
    (∀ checksum, World.after w1 (LoadFileOrURLWithChecksum w1 fileRef checksum).calls = w1) ∧
    LoadFileOrURL (World.after w1 (LoadFileOrURL w1 fileRef).calls) fileRef =
      LoadFileOrURL w1 fileRef ∧
    (∀ checksum,
      LoadFileOrURLWithChecksum
          (World.after w1 (LoadFileOrURLWithChecksum w1 fileRef checksum).calls) fileRef
          checksum =
        LoadFileOrURLWithChecksum w1 fileRef checksum) := by
  have hload : LoadFileOrURL w1 fileRef = LoadFileOrURL w2 fileRef := by
    rcases SplitAfterN_two_cases fileRef (str "://") (by decide) with h | ⟨t, b, h⟩
    · rw [LoadFileOrURL_of_single w1 fileRef h, LoadFileOrURL_of_single w2 fileRef h]
      simp only [osReadFile]
      rw [hopen, hclean]
    · rw [LoadFileOrURL_of_split w1 fileRef t b h, LoadFileOrURL_of_split w2 fileRef t b h,
        hget, henv b]
  refine ⟨hload, ?_, LoadFileOrURL_calls w1 fileRef,
    fun checksum => LoadFileOrURLWithChecksum_calls w1 fileRef checksum,
    after_LoadFileOrURL w1 fileRef,
    fun checksum => after_LoadFileOrURLWithChecksum w1 fileRef checksum, ?_, ?_⟩
  · intro checksum
    simp only [LoadFileOrURLWithChecksum, LoadFileOrURLWithChecksum.verify, hload]
  · rw [after_LoadFileOrURL w1 fileRef]
  · intro checksum
    rw [after_LoadFileOrURLWithChecksum w1 fileRef checksum]

theorem LoadFileOrURL_deterministic_witness :
    LoadFileOrURL exampleWorld (str "hello.txt") =
        LoadFileOrURL
          { exampleWorld with
            Open := fun name =>
              if name = str "other.txt" then .ok ⟨str "other", none⟩ else exampleWorld.Open name }
          (str "hello.txt") ∧
    (∀ checksum,
      LoadFileOrURLWithChecksum exampleWorld (str "hello.txt") checksum =
        LoadFileOrURLWithChecksum
          { exampleWorld with
            Open := fun name =>
              if name = str "other.txt" then .ok ⟨str "other", none⟩ else exampleWorld.Open name }
          (str "hello.txt") checksum) ∧
    World.after exampleWorld (LoadFileOrURL exampleWorld (str "hello.txt")).calls =
      exampleWorld ∧
    LoadFileOrURL (World.after exampleWorld (LoadFileOrURL exampleWorld (str "hello.txt")).calls)
        (str "hello.txt") =
      LoadFileOrURL exampleWorld (str "hello.txt") :=
  ⟨(LoadFileOrURL_deterministic exampleWorld
      { exampleWorld with
        Open := fun name =>
          if name = str "other.txt" then .ok ⟨str "other", none⟩ else exampleWorld.Open name }
      (str "hello.txt") rfl rfl rfl (fun _ => rfl)).1,
    (LoadFileOrURL_deterministic exampleWorld
      { exampleWorld with
        Open := fun name =>
          if name = str "other.txt" then .ok ⟨str "other", none⟩ else exampleWorld.Open name }
      (str "hello.txt") rfl rfl rfl (fun _ => rfl)).2.1,
    (LoadFileOrURL_deterministic exampleWorld exampleWorld (str "hello.txt") rfl rfl rfl
      (fun _ => rfl)).2.2.2.2.1,
    (LoadFileOrURL_deterministic exampleWorld exampleWorld (str "hello.txt") rfl rfl rfl
      (fun _ => rfl)).2.2.2.2.2.2.1⟩

/-! ## The status code of a response -/

/-- C17 (the HTTP status is not checked). Let the reference begin with `http://` or
`https://`, and let the GET of it deliver a response, of any status code, whose body reads
to the end without error. Then `LoadFileOrURL` returns the body and no error, and
`LoadFileOrURLWithChecksum` returns the body and no error when the specifier is the lowercase
hex SHA-256 digest of the body, bare or after `sha256:`, or its SHA-512 digest after
`sha512:`. The status code has no influence: in every world whose response to the GET has
the same body, both operations give the same outcome. -/
theorem http_status_not_checked (w : World) (r : Bytes) (resp : Response)
    (h : str "http://" <+: r ∨ str "https://" <+: r)
    (hget : w.Get r = .ok resp) (hbody : resp.Body.err = none) :
    LoadFileOrURL w r = .ret [.Get r] (some resp.Body.data) none ∧
    LoadFileOrURLWithChecksum w r (hexEncodeToString (sha256Sum resp.Body.data)) =
      .ret [.Get r] (some resp.Body.data) none ∧
    LoadFileOrURLWithChecksum w r
        (str "sha256:" ++ hexEncodeToString (sha256Sum resp.Body.data)) =
      .ret [.Get r] (some resp.Body.data) none ∧
    LoadFileOrURLWithChecksum w r
        (str "sha512:" ++ hexEncodeToString (sha512Sum resp.Body.data)) =
      .ret [.Get r] (some resp.Body.data) none ∧
    (∀ (w2 : World) (resp2 : Response), w2.Get r = .ok resp2 → resp2.Body = resp.Body →
      LoadFileOrURL w2 r = LoadFileOrURL w r ∧
        ∀ checksum,
          LoadFileOrURLWithChecksum w2 r checksum = LoadFileOrURLWithChecksum w r checksum) := by
  have hload : LoadFileOrURL w r = .ret [.Get r] (some resp.Body.data) none := by
    rw [LoadFileOrURL_of_http w r h, hget]
    simp [ioReadAll, hbody]
  refine ⟨hload, ?_, ?_, ?_, ?_⟩
  · rw [LoadFileOrURLWithChecksum_of_bare w r _ (colon_not_mem_hexEncodeToString _),
      ← Sum_sha256New]
    exact verify_match w r sha256New _ _ hload
  · rw [LoadFileOrURLWithChecksum_of_sha256 w r _ (colon_not_mem_hexEncodeToString _),
      ← Sum_sha256New]
    exact verify_match w r sha256New _ _ hload
  · rw [LoadFileOrURLWithChecksum_of_sha512 w r _ (colon_not_mem_hexEncodeToString _),
      ← Sum_sha512New]
    exact verify_match w r sha512New _ _ hload
  · intro w2 resp2 hget2 hsame
    have hload2 : LoadFileOrURL w2 r = LoadFileOrURL w r := by
      rw [LoadFileOrURL_of_http w r h, LoadFileOrURL_of_http w2 r h, hget, hget2]
      simp only [hsame]
    refine ⟨hload2, fun checksum => ?_⟩
    simp only [LoadFileOrURLWithChecksum, LoadFileOrURLWithChecksum.verify, hload2]

theorem http_status_not_checked_witness :
    LoadFileOrURL exampleWorld (str "https://example.com/missing") =
        .ret [.Get (str "https://example.com/missing")] (some (str "404 page not found")) none ∧
      LoadFileOrURLWithChecksum exampleWorld (str "https://example.com/missing")
          (str "sha256:" ++ hexEncodeToString (sha256Sum (str "404 page not found"))) =
        .ret [.Get (str "https://example.com/missing")] (some (str "404 page not found")) none :=
  ⟨(http_status_not_checked exampleWorld (str "https://example.com/missing")
      ⟨404, ⟨str "404 page not found", none⟩⟩ (Or.inr (by decide)) rfl rfl).1,
    (http_status_not_checked exampleWorld (str "https://example.com/missing")
      ⟨404, ⟨str "404 page not found", none⟩⟩ (Or.inr (by decide)) rfl rfl).2.2.1⟩

/-! ## The shape of a digest -/

theorem beBytes_length (n x : Nat) : (sha2.beBytes n x).length = n := by
  induction n with
  | zero => rfl
  | succ n ih => simp [sha2.beBytes, ih]

theorem round_length (p : sha2.Params) (s : List Nat) (kw : Nat × Nat) (hs : s.length = 8) :
    (sha2.round p s kw).length = 8 := by
  rcases s with _ | ⟨a, _ | ⟨b, _ | ⟨c, _ | ⟨d, _ | ⟨e, _ | ⟨f, _ | ⟨g, _ | ⟨h, _ | ⟨i, t⟩⟩⟩⟩⟩⟩⟩⟩⟩ <;>
    simp at hs
  simp [sha2.round]

theorem foldl_round_length (p : sha2.Params) (kws : List (Nat × Nat)) :
    ∀ s : List Nat, s.length = 8 → (kws.foldl (sha2.round p) s).length = 8 := by
  induction kws with
  | nil => intro s hs; simpa using hs
  | cons kw kws ih =>
    intro s hs
    simp only [List.foldl_cons]
    exact ih _ (round_length p s kw hs)

theorem compress_length (p : sha2.Params) (h : List Nat) (block : Bytes) (hh : h.length = 8) :
    (sha2.compress p h block).length = 8 := by
  simp only [sha2.compress, List.length_zipWith, foldl_round_length p _ h hh, hh]
  rfl

theorem foldl_compress_length (p : sha2.Params) (blocks : List Bytes) :
    ∀ h : List Nat, h.length = 8 → (blocks.foldl (sha2.compress p) h).length = 8 := by
  induction blocks with
  | nil => intro h hh; simpa using hh
  | cons b blocks ih =>
    intro h hh
    simp only [List.foldl_cons]
    exact ih _ (compress_length p h b hh)

theorem foldr_beBytes_length (n : Nat) (h : List Nat) :
    (h.foldr (fun x acc => sha2.beBytes n x ++ acc) []).length = h.length * n := by
  induction h with
  | nil => simp
  | cons x h ih =>
    simp only [List.foldr_cons, List.length_append, beBytes_length, ih, List.length_cons]
    rw [Nat.succ_mul]
    omega

theorem sum_length (p : sha2.Params) (msg : Bytes) (hH : p.H0.length = 8) :
    (sha2.sum p msg).length = 8 * (p.w / 8) := by
  simp only [sha2.sum, foldr_beBytes_length, foldl_compress_length p _ p.H0 hH]

theorem sha256Sum_length (msg : Bytes) : (sha256Sum msg).length = 32 :=
  sum_length sha2.sha256Params msg rfl

theorem sha512Sum_length (msg : Bytes) : (sha512Sum msg).length = 64 :=
  sum_length sha2.sha512Params msg rfl

theorem hexEncodeToString_length (x : Bytes) :
    (hexEncodeToString x).length = 2 * x.length := by
  induction x with
  | nil => rfl
  | cons v rest ih => simp [hexEncodeToString, ih]; omega

theorem hextable_getD_mem (i : Nat) (h : i < 16) : hextable.getD i 0 ∈ hextable := by
  interval_cases i <;> decide

theorem hexEncodeToString_digits (x : Bytes) :
    ∀ b ∈ hexEncodeToString x, b ∈ str "0123456789abcdef" := by
  induction x with
  | nil => intro b hb; simp [hexEncodeToString] at hb
  | cons v rest ih =>
    intro b hb
    simp only [hexEncodeToString, List.mem_cons] at hb
    have hv : v.toNat < 256 := v.val.isLt
    rcases hb with hb | hb | hb
    · rw [hb]
      apply hextable_getD_mem
      rw [Nat.shiftRight_eq_div_pow]
      omega
    · rw [hb]
      apply hextable_getD_mem
      have := @Nat.and_le_right v.toNat 15
      omega
    · exact ih b hb

theorem ne_hex_of_not_canonical (d x : Bytes) (n : Nat)
    (hlen : (hexEncodeToString x).length = n)
    (h : d.length ≠ n ∨ ∃ b ∈ d, b ∉ str "0123456789abcdef") :
    d ≠ hexEncodeToString x := by
  intro heq
  rcases h with h | ⟨b, hb, hnot⟩
  · exact h (by rw [heq, hlen])
  · exact hnot (hexEncodeToString_digits x b (heq ▸ hb))

/-- C18 (only canonical digests verify). Whenever `LoadFileOrURLWithChecksum` returns
without error, the specifier is `digest`, `sha256:digest` or `sha512:digest` where `digest`
has only the bytes of `0123456789abcdef`, and is 64 bytes long in the first two cases and
128 bytes long in the third. Hence, when `LoadFileOrURL` resolves the reference to content
`c`, every digest `d` without a colon whose length is not 64 (the empty one, a truncated
one) or that holds a byte outside `0123456789abcdef` (an uppercase letter) fails, bare and
after `sha256:`, with the checksum mismatch error, and likewise after `sha512:` with 128 for
64. -/
theorem canonical_digest_only (w : World) (fileRef : Bytes) :
    (∀ checksum calls val,
      LoadFileOrURLWithChecksum w fileRef checksum = .ret calls val none →
      ∃ digest, (∀ b ∈ digest, b ∈ str "0123456789abcdef") ∧
        (((checksum = digest ∨ checksum = str "sha256:" ++ digest) ∧ digest.length = 64) ∨
          (checksum = str "sha512:" ++ digest ∧ digest.length = 128))) ∧
    (∀ calls c, LoadFileOrURL w fileRef = .ret calls (some c) none →
      (∀ d, (58 : UInt8) ∉ d →
        (d.length ≠ 64 ∨ ∃ b ∈ d, b ∉ str "0123456789abcdef") →
        LoadFileOrURLWithChecksum w fileRef d =
            .ret calls none
              (some (.errorString (str "incorrect checksum for file " ++ fileRef ++
                str ": expected " ++ d ++ str " but got " ++
                hexEncodeToString (sha256Sum c)))) ∧
          LoadFileOrURLWithChecksum w fileRef (str "sha256:" ++ d) =
            .ret calls none
              (some (.errorString (str "incorrect checksum for file " ++ fileRef ++
                str ": expected " ++ d ++ str " but got " ++
                hexEncodeToString (sha256Sum c))))) ∧
      (∀ d, (58 : UInt8) ∉ d →
        (d.length ≠ 128 ∨ ∃ b ∈ d, b ∉ str "0123456789abcdef") →
        LoadFileOrURLWithChecksum w fileRef (str "sha512:" ++ d) =
          .ret calls none
            (some (.errorString (str "incorrect checksum for file " ++ fileRef ++
              str ": expected " ++ d ++ str " but got " ++
              hexEncodeToString (sha512Sum c)))))) := by
  have len256 : ∀ c, (hexEncodeToString (sha256Sum c)).length = 64 := fun c => by
    rw [hexEncodeToString_length, sha256Sum_length]
  have len512 : ∀ c, (hexEncodeToString (sha512Sum c)).length = 128 := fun c => by
    rw [hexEncodeToString_length, sha512Sum_length]
  constructor
  · intro checksum calls val h
    rcases colon_cases checksum with h0 | ⟨a, d, hs, ha, hd⟩ | h2
    · rw [LoadFileOrURLWithChecksum_of_bare w fileRef checksum h0] at h
      obtain ⟨c, _, _, hsum⟩ := verify_success w fileRef checksum _ calls val h
      rw [Sum_sha256New] at hsum
      refine ⟨checksum, ?_, Or.inl ⟨Or.inl rfl, ?_⟩⟩
      · rw [← hsum]; exact hexEncodeToString_digits _
      · rw [← hsum]; exact len256 c
    · subst hs
      rw [LoadFileOrURLWithChecksum_of_algo w fileRef a d ha hd] at h
      split_ifs at h with h256 h512
      · obtain ⟨c, _, _, hsum⟩ := verify_success w fileRef d _ calls val h
        rw [Sum_sha256New] at hsum
        refine ⟨d, ?_, Or.inl ⟨Or.inr ?_, ?_⟩⟩
        · rw [← hsum]; exact hexEncodeToString_digits _
        · rw [str_sha256_colon, h256]; simp
        · rw [← hsum]; exact len256 c
      · obtain ⟨c, _, _, hsum⟩ := verify_success w fileRef d _ calls val h
        rw [Sum_sha512New] at hsum
        refine ⟨d, ?_, Or.inr ⟨?_, ?_⟩⟩
        · rw [← hsum]; exact hexEncodeToString_digits _
        · rw [str_sha512_colon, h512]; simp
        · rw [← hsum]; exact len512 c
      · simp at h
    · rw [LoadFileOrURLWithChecksum_of_many w fileRef checksum h2] at h
      simp at h
  · intro calls c hload
    refine ⟨fun d hd hbad => ⟨?_, ?_⟩, fun d hd hbad => ?_⟩
    · have hne := ne_hex_of_not_canonical d (sha256Sum c) 64 (len256 c) hbad
      rw [LoadFileOrURLWithChecksum_of_bare w fileRef d hd, ← Sum_sha256New]
      exact verify_mismatch w fileRef d sha256New calls c hload (by rwa [Sum_sha256New])
    · have hne := ne_hex_of_not_canonical d (sha256Sum c) 64 (len256 c) hbad
      rw [LoadFileOrURLWithChecksum_of_sha256 w fileRef d hd, ← Sum_sha256New]
      exact verify_mismatch w fileRef d sha256New calls c hload (by rwa [Sum_sha256New])
    · have hne := ne_hex_of_not_canonical d (sha512Sum c) 128 (len512 c) hbad
      rw [LoadFileOrURLWithChecksum_of_sha512 w fileRef d hd, ← Sum_sha512New]
      exact verify_mismatch w fileRef d sha512New calls c hload (by rwa [Sum_sha512New])

theorem canonical_digest_only_witness :
    (∃ digest, (∀ b ∈ digest, b ∈ str "0123456789abcdef") ∧
        (((str "2cf24dba5fb0a30e26e83b2ac5b9e29e1b161e5c1fa7425e73043362938b9824" = digest ∨
            str "2cf24dba5fb0a30e26e83b2ac5b9e29e1b161e5c1fa7425e73043362938b9824" =
              str "sha256:" ++ digest) ∧ digest.length = 64) ∨
          (str "2cf24dba5fb0a30e26e83b2ac5b9e29e1b161e5c1fa7425e73043362938b9824" =
            str "sha512:" ++ digest ∧ digest.length = 128))) ∧
      LoadFileOrURLWithChecksum exampleWorld (str "hello.txt") (str "") =
        .ret [.ReadFile (str "hello.txt")] none
          (some (.errorString (str "incorrect checksum for file " ++ str "hello.txt" ++
            str ": expected " ++ str "" ++ str " but got " ++
            hexEncodeToString (sha256Sum (str "hello"))))) ∧
      LoadFileOrURLWithChecksum exampleWorld (str "hello.txt")
          (str "sha256:" ++
            str "2CF24DBA5FB0A30E26E83B2AC5B9E29E1B161E5C1FA7425E73043362938B9824") =
        .ret [.ReadFile (str "hello.txt")] none
          (some (.errorString (str "incorrect checksum for file " ++ str "hello.txt" ++
            str ": expected " ++
            str "2CF24DBA5FB0A30E26E83B2AC5B9E29E1B161E5C1FA7425E73043362938B9824" ++
            str " but got " ++ hexEncodeToString (sha256Sum (str "hello"))))) ∧
      LoadFileOrURLWithChecksum exampleWorld (str "hello.txt") (str "sha512:" ++ str "9b71d224") =
        .ret [.ReadFile (str "hello.txt")] none
          (some (.errorString (str "incorrect checksum for file " ++ str "hello.txt" ++
            str ": expected " ++ str "9b71d224" ++ str " but got " ++
            hexEncodeToString (sha512Sum (str "hello"))))) :=
  ⟨(canonical_digest_only exampleWorld (str "hello.txt")).1
      (str "2cf24dba5fb0a30e26e83b2ac5b9e29e1b161e5c1fa7425e73043362938b9824")
      [.ReadFile (str "hello.txt")] (some (str "hello")) (by decide),
    (((canonical_digest_only exampleWorld (str "hello.txt")).2
      [.ReadFile (str "hello.txt")] (str "hello") (by decide)).1
      (str "") (by decide) (Or.inl (by decide))).1,
    (((canonical_digest_only exampleWorld (str "hello.txt")).2
      [.ReadFile (str "hello.txt")] (str "hello") (by decide)).1
      (str "2CF24DBA5FB0A30E26E83B2AC5B9E29E1B161E5C1FA7425E73043362938B9824") (by decide)
      (Or.inr ⟨67, by decide, by decide⟩)).2,
    ((canonical_digest_only exampleWorld (str "hello.txt")).2
      [.ReadFile (str "hello.txt")] (str "hello") (by decide)).2
      (str "9b71d224") (by decide) (Or.inl (by decide))⟩

/-! ## Index accesses -/

theorem LoadFileOrURLUsingReader_ret (w : World) (r : Bytes) :
    ∃ calls val err, LoadFileOrURLUsingReader w r = .ret calls val err := by
  rcases SplitAfterN_two_cases r (str "://") (by decide) with h | ⟨t, b, h⟩
  · rw [LoadFileOrURLUsingReader_of_single w r h]
    cases w.Open (w.Clean r) with
    | error err => exact ⟨_, _, _, rfl⟩
    | ok f => exact ⟨_, _, _, rfl⟩
  · rw [LoadFileOrURLUsingReader_of_split w r t b h]
    split_ifs
    · cases w.Get r with
      | error err => exact ⟨_, _, _, rfl⟩
      | ok resp => exact ⟨_, _, _, rfl⟩
    · cases w.LookupEnv b with
      | none => exact ⟨_, _, _, rfl⟩
      | some v => exact ⟨_, _, _, rfl⟩
    · exact ⟨_, _, _, rfl⟩

theorem LoadFileOrURL_ret (w : World) (r : Bytes) :
    ∃ calls val err, LoadFileOrURL w r = .ret calls val err := by
  rcases LoadFileOrURL_cases w r with ⟨calls, e, h⟩ | ⟨calls, c, h⟩
  · exact ⟨_, _, _, h⟩
  · exact ⟨_, _, _, h⟩

theorem verify_ret (w : World) (fileRef d : Bytes) (algo : Hash) :
    ∃ calls val err, LoadFileOrURLWithChecksum.verify w fileRef d algo = .ret calls val err := by
  rcases LoadFileOrURL_cases w fileRef with ⟨calls, e, h⟩ | ⟨calls, c, h⟩
  · exact ⟨_, _, _, verify_of_error w fileRef d algo calls none e h⟩
  · rw [verify_of_content w fileRef d algo calls (some c) h]
    split_ifs
    · exact ⟨_, _, _, rfl⟩
    · exact ⟨_, _, _, rfl⟩

/-- C19 (no out-of-range indexing). For every world, reference and checksum string, the
split of the checksum on `:` is not empty, so its last element exists, and its first
element exists too; the empty string splits into one part, a lone `:` into two and `::`
into three. None of `LoadFileOrURL`, `LoadFileOrURLUsingReader` and
`LoadFileOrURLWithChecksum` ends in a panic: each returns. -/
theorem no_index_panic (w : World) (fileRef checksum : Bytes) :
    0 < (Split checksum (str ":")).length ∧
    (Split checksum (str ":"))[(Split checksum (str ":")).length - 1]?.isSome = true ∧
    (Split checksum (str ":"))[0]?.isSome = true ∧
    Split (str "") (str ":") = [str ""] ∧
    Split (str ":") (str ":") = [str "", str ""] ∧
    Split (str "::") (str ":") = [str "", str "", str ""] ∧
    (∃ calls val err, LoadFileOrURL w fileRef = .ret calls val err) ∧
    (∃ calls val err, LoadFileOrURLUsingReader w fileRef = .ret calls val err) ∧
    (∃ calls val err, LoadFileOrURLWithChecksum w fileRef checksum = .ret calls val err) := by
  have hlen : 0 < (Split checksum (str ":")).length := by
    rw [str_colon, length_Split]
    omega
  refine ⟨hlen, ?_, ?_, by decide, by decide, by decide, LoadFileOrURL_ret w fileRef,
    LoadFileOrURLUsingReader_ret w fileRef, ?_⟩
  · rw [List.getElem?_eq_getElem (by omega)]
    rfl
  · rw [List.getElem?_eq_getElem hlen]
    rfl
  · rcases colon_cases checksum with h0 | ⟨a, d, hs, ha, hd⟩ | h2
    · rw [LoadFileOrURLWithChecksum_of_bare w fileRef checksum h0]
      exact verify_ret w fileRef checksum _
    · subst hs
      rw [LoadFileOrURLWithChecksum_of_algo w fileRef a d ha hd]
      split_ifs
      · exact verify_ret w fileRef d _
      · exact verify_ret w fileRef d _
      · exact ⟨_, _, _, rfl⟩
    · rw [LoadFileOrURLWithChecksum_of_many w fileRef checksum h2]
      exact ⟨_, _, _, rfl⟩

end blob

namespace remote

/-! ## The registry lookup -/

/-- C20 (the filter of `Referrers` is optional). For every client, digest, artifact type
and option list, `Referrers` calls `remote.Referrers` exactly once, with the digest and with
the remote options made from the given options, followed by the one filter
`artifactType = <artifact type>` when the artifact type is not empty and by nothing when it
is empty. An error of that call is returned unchanged with a nil manifest; otherwise the pair
returned is the one of `IndexManifest` of the returned index. -/
theorem Referrers_filter_optional {Digest Opt ROpt Index Manifest Err : Type}
    (c : Client Digest Opt ROpt Index Manifest Err) (d : Digest) (artifactType : blob.Bytes)
    (opts : List Opt) :
    (Referrers c d artifactType opts).calls =
        [(d, c.makeOptions opts ++
          if artifactType = [] then []
          else [c.WithFilter (blob.str "artifactType") artifactType])] ∧
    (∀ rOpt err, (Referrers c d artifactType opts).calls = [(d, rOpt)] →
      c.Referrers d rOpt = .error err →
      (Referrers c d artifactType opts).manifest = none ∧
        (Referrers c d artifactType opts).err = some err) ∧
    (∀ rOpt idx, (Referrers c d artifactType opts).calls = [(d, rOpt)] →
      c.Referrers d rOpt = .ok idx →
      (Referrers c d artifactType opts).manifest = (c.IndexManifest idx).1 ∧
        (Referrers c d artifactType opts).err = (c.IndexManifest idx).2) := by
  have hempty : blob.str "" = [] := rfl
  by_cases ha : artifactType = []
  · subst ha
    simp only [Referrers, hempty, ne_eq, not_true_eq_false, if_false, if_true,
      List.append_nil]
    cases h : c.Referrers d (c.makeOptions opts) with
    | error e =>
      refine ⟨rfl, ?_, ?_⟩
      · intro rOpt err hcalls hr
        simp only [List.cons.injEq, Prod.mk.injEq, true_and, and_true] at hcalls
        subst hcalls
        rw [h] at hr
        cases hr
        exact ⟨rfl, rfl⟩
      · intro rOpt idx hcalls hr
        simp only [List.cons.injEq, Prod.mk.injEq, true_and, and_true] at hcalls
        subst hcalls
        rw [h] at hr
        cases hr
    | ok i =>
      refine ⟨rfl, ?_, ?_⟩
      · intro rOpt err hcalls hr
        simp only [List.cons.injEq, Prod.mk.injEq, true_and, and_true] at hcalls
        subst hcalls
        rw [h] at hr
        cases hr
      · intro rOpt idx hcalls hr
        simp only [List.cons.injEq, Prod.mk.injEq, true_and, and_true] at hcalls
        subst hcalls
        rw [h] at hr
        cases hr
        exact ⟨rfl, rfl⟩
  · simp only [Referrers, hempty, ne_eq, ha, not_false_eq_true, if_true, if_false]
    cases h : c.Referrers d
        (c.makeOptions opts ++ [c.WithFilter (blob.str "artifactType") artifactType]) with
    | error e =>
      refine ⟨rfl, ?_, ?_⟩
      · intro rOpt err hcalls hr
        simp only [List.cons.injEq, Prod.mk.injEq, true_and, and_true] at hcalls
        subst hcalls
        rw [h] at hr
        cases hr
        exact ⟨rfl, rfl⟩
      · intro rOpt idx hcalls hr
        simp only [List.cons.injEq, Prod.mk.injEq, true_and, and_true] at hcalls
        subst hcalls
        rw [h] at hr
        cases hr
    | ok i =>
      refine ⟨rfl, ?_, ?_⟩
      · intro rOpt err hcalls hr
        simp only [List.cons.injEq, Prod.mk.injEq, true_and, and_true] at hcalls
        subst hcalls
        rw [h] at hr
        cases hr
      · intro rOpt idx hcalls hr
        simp only [List.cons.injEq, Prod.mk.injEq, true_and, and_true] at hcalls
        subst hcalls
        rw [h] at hr
        cases hr
        exact ⟨rfl, rfl⟩

theorem Referrers_filter_optional_witness :
    (Referrers exampleClient (blob.str "sha256:00") (blob.str "application/vnd.dev.cosign")
        [(blob.str "user-agent", blob.str "cosign")]).calls =
      [(blob.str "sha256:00",
        [(blob.str "user-agent", blob.str "cosign"),
          (blob.str "artifactType", blob.str "application/vnd.dev.cosign")])] ∧
    ((Referrers exampleClient (blob.str "sha256:00") (blob.str "application/vnd.dev.cosign")
        [(blob.str "user-agent", blob.str "cosign")]).manifest = none ∧
      (Referrers exampleClient (blob.str "sha256:00") (blob.str "application/vnd.dev.cosign")
        [(blob.str "user-agent", blob.str "cosign")]).err = some (blob.str "NAME_UNKNOWN")) ∧
    ((Referrers exampleClient (blob.str "sha256:11") (blob.str "")
        [(blob.str "user-agent", blob.str "cosign")]).manifest = some [blob.str "cosign"] ∧
      (Referrers exampleClient (blob.str "sha256:11") (blob.str "")
        [(blob.str "user-agent", blob.str "cosign")]).err = none) :=
  ⟨(Referrers_filter_optional exampleClient (blob.str "sha256:00")
      (blob.str "application/vnd.dev.cosign") [(blob.str "user-agent", blob.str "cosign")]).1,
    (Referrers_filter_optional exampleClient (blob.str "sha256:00")
      (blob.str "application/vnd.dev.cosign")
      [(blob.str "user-agent", blob.str "cosign")]).2.1 _ (blob.str "NAME_UNKNOWN") rfl rfl,
    (Referrers_filter_optional exampleClient (blob.str "sha256:11") (blob.str "")
      [(blob.str "user-agent", blob.str "cosign")]).2.2 _ [blob.str "cosign"] rfl rfl⟩

end remote
